import Mathlib

/-!
# watering_garden: DHT22 reader and relay scheduler

A shallow embedding of `components/dht22/dht22.c` and `components/reles/reles.c`.

Conventions of the embedding

* C `int` values are `Int`, and the one `int` the code increments without a bound
  of its own, the counter `uSec`, wraps to 32 bits (`wrap_int`); `uint8_t`
  values are `Nat` reduced `% 256` where the C code truncates.
* The `float` statics `humidity` and `temperature` are exact rationals: the
  rounding of single-precision arithmetic is not modelled.
* The hardware is an input tape: `env gpio k` is the level returned by the
  `k`-th call of `gpio_get_level` when it is made on line `gpio`.  The number of
  calls made so far is the field `reads`.
* GPIO writes, direction changes and `vTaskDelay` calls are appended to a trace.
  Busy waiting (`usleep`) only passes time and leaves no trace.
* Kernel objects (queues, tasks) live in tables; a handle is an index into its
  table and `NULL` is `none`.  Whether the kernel can allocate an object is a
  Boolean argument of the function that creates it.
* A task is modelled by one pass through the body of its loop; what several tasks
  do together is a sequence of such passes and calls.
-/

namespace Garden

/-! ## Hardware trace -/

/-- Direction argument of `gpio_set_direction`. -/
inductive GpioMode where
  | input
  | output
  deriving DecidableEq, Repr

/-- One observable action on the hardware or the scheduler. -/
inductive HwOp where
  | set_direction (gpio : Int) (mode : GpioMode)
  | set_level (gpio : Int) (level : Int)
  | config_output (gpio : Int)
  | delay (ms : Nat)
  deriving DecidableEq, Repr

/-- The input tape: `env gpio k` is what the `k`-th `gpio_get_level` call returns on `gpio`. -/
abbrev Env := Int → Nat → Int

/-! ## dht22.c -/

def GPIO_DHT22 : Int := 22
def DHT_OK : Int := 0
def DHT_CHECKSUM_ERROR : Int := -1
def DHT_TIMEOUT_ERROR : Int := -2
def MAXdhtData : Nat := 5

/-- The file-level statics of `dht22.c`, the read counter of the input tape and the
trace of hardware actions. -/
structure Dht where
  dht22_task_handle : Option Nat
  dht22_task_running : Bool
  DHTgpio : Int
  humidity : ℚ
  temperature : ℚ
  reads : Nat
  ops : List HwOp
  deriving DecidableEq

/-- The statics as initialised at lines 53-57. -/
def Dht.boot : Dht :=
  { dht22_task_handle := none, dht22_task_running := false, DHTgpio := 4,
    humidity := 0, temperature := 0, reads := 0, ops := [] }

/-- The statics once `dht22_init` has run (lines 119-122): the reader is on
`GPIO_DHT22` and its task, the first created, is running. -/
def Dht.started : Dht :=
  { Dht.boot with dht22_task_handle := some 0, dht22_task_running := true,
                  DHTgpio := GPIO_DHT22 }

/-- The largest value of the C type `int` on the target (32 bits). -/
def INT_MAX : Int := 2147483647

/-- The value a 32-bit `int` holds after an arithmetic result `x`: the result wraps
around in two's complement, from `INT_MAX` to `-INT_MAX - 1`. -/
def wrap_int (x : Int) : Int :=
  (x + 2147483648) % 4294967296 - 2147483648

/-- The `while` loop of `get_signal_level` (lines 284-290), with `fuel` bounding the
number of times the loop condition is evaluated.  Each evaluation of the
condition reads the line once.  The counter `uSec` is a 32-bit `int`: `++uSec`
wraps.  `none` means the fuel ran out. -/
def get_signal_level_loop (env : Env) (gpio : Int) (usTimeOut : Int) (state : Bool) :
    Nat → Int → Nat → Option (Int × Nat)
  | 0, _, _ => none
  | fuel + 1, uSec, reads =>
    if env gpio reads = (if state then 1 else 0) then
      if uSec > usTimeOut then some (-1, reads + 1)
      else get_signal_level_loop env gpio usTimeOut state fuel (wrap_int (uSec + 1)) (reads + 1)
    else some (uSec, reads + 1)

/-- `get_signal_level(usTimeOut, state)` on line `gpio`, starting at tape position
`reads`, for a bound below `INT_MAX` (`read_dht` passes 85, 56 and 75): the
returned `int` and the tape position afterwards.  For such a bound the fuel
`usTimeOut + 2` always suffices (`get_signal_level_eq_loop`), so the default is
never taken.  With the bound `INT_MAX` the test `uSec > usTimeOut` never holds
and the loop need not return; its runs are then those of
`get_signal_level_loop`, and this function says nothing about them. -/
def get_signal_level (env : Env) (gpio : Int) (usTimeOut : Int) (state : Bool)
    (reads : Nat) : Int × Nat :=
  (get_signal_level_loop env gpio usTimeOut state (usTimeOut.toNat + 2) 0 reads).getD
    (-1, reads)

/-- The locals `dhtData`, `byteInx`, `bitInx` of `read_dht` (lines 187-189). -/
structure BitLoop where
  dhtData : List Nat
  byteInx : Nat
  bitInx : Nat
  deriving DecidableEq, Repr

/-- Lines 240-247: the part of the bit-loop body after the two waits.  A write
outside the array (undefined in C) is dropped by `List.set`. -/
def store_bit (bl : BitLoop) (uSec : Int) : BitLoop :=
  let dhtData :=
    if uSec > 40 then
      bl.dhtData.set bl.byteInx ((bl.dhtData.getD bl.byteInx 0 ||| (1 <<< bl.bitInx)) % 256)
    else bl.dhtData
  if bl.bitInx = 0 then { dhtData := dhtData, byteInx := (bl.byteInx + 1) % 256, bitInx := 7 }
  else { dhtData := dhtData, byteInx := bl.byteInx, bitInx := bl.bitInx - 1 }

/-- The `for` loop of lines 224-248 run for `n` iterations.  The first component is
`none` when a wait returned a negative value (the `return DHT_TIMEOUT_ERROR`
of lines 229 and 234). -/
def read_dht_bits (env : Env) (gpio : Int) : Nat → BitLoop → Nat → Option BitLoop × Nat
  | 0, bl, reads => (some bl, reads)
  | n + 1, bl, reads =>
    let w0 := get_signal_level env gpio 56 false reads
    if w0.1 < 0 then (none, w0.2)
    else
      let w1 := get_signal_level env gpio 75 true w0.2
      if w1.1 < 0 then (none, w1.2)
      else read_dht_bits env gpio n (store_bit bl w1.1) w1.2

/-- Lines 195-208: the start signal. -/
def start_signal (gpio : Int) : List HwOp :=
  [ .set_direction gpio .input, .set_direction gpio .output, .set_level gpio 0,
    .set_level gpio 1, .set_direction gpio .input ]

/-- Lines 185-248 of `read_dht`: clearing `dhtData`, the two acknowledgement waits
and the bit loop.  The result is the received frame, or `none` when the function
returned `DHT_TIMEOUT_ERROR`, and the tape position afterwards. -/
def read_dht_receive (env : Env) (s : Dht) : Option (List Nat) × Nat :=
  let a0 := get_signal_level env s.DHTgpio 85 false s.reads
  if a0.1 < 0 then (none, a0.2)
  else
    let a1 := get_signal_level env s.DHTgpio 85 true a0.2
    if a1.1 < 0 then (none, a1.2)
    else
      let r := read_dht_bits env s.DHTgpio 40
        { dhtData := List.replicate MAXdhtData 0, byteInx := 0, bitInx := 7 } a1.2
      (r.1.map (·.dhtData), r.2)

/-- Lines 250-278 of `read_dht`: the decode of the frame into the statics, followed
by the checksum test. -/
def read_dht_decode (dhtData : List Nat) (s : Dht) : Int × Dht :=
  let d := fun i => dhtData.getD i 0
  let humidity : ℚ := ((d 0 : ℚ) * 0x100 + d 1) / 10
  let temperature : ℚ := (((d 2 &&& 0x7F : Nat) : ℚ) * 0x100 + d 3) / 10
  let temperature : ℚ := if d 2 &&& 0x80 ≠ 0 then temperature * (-1) else temperature
  let s := { s with humidity := humidity, temperature := temperature }
  if d 4 = (d 0 + d 1 + d 2 + d 3) &&& 0xFF then (DHT_OK, s) else (DHT_CHECKSUM_ERROR, s)

/-- The function `read_dht` (lines 183-278). -/
def read_dht (env : Env) (s : Dht) : Int × Dht :=
  let s1 := { s with ops := s.ops ++ start_signal s.DHTgpio }
  match read_dht_receive env s with
  | (none, reads) => (DHT_TIMEOUT_ERROR, { s1 with reads := reads })
  | (some dhtData, reads) => read_dht_decode dhtData { s1 with reads := reads }

/-- The durations of the high pulses measured by `n` iterations of the bit loop
(the values of `uSec` after line 233), when every wait of those iterations
succeeds; `none` when one of them returns a negative value. -/
def measured_pulses (env : Env) (gpio : Int) : Nat → Nat → Option (List Int × Nat)
  | 0, reads => some ([], reads)
  | n + 1, reads =>
    let w0 := get_signal_level env gpio 56 false reads
    if w0.1 < 0 then none
    else
      let w1 := get_signal_level env gpio 75 true w0.2
      if w1.1 < 0 then none
      else (measured_pulses env gpio n w1.2).map (fun p => (w1.1 :: p.1, p.2))

/-! ## reles.c -/

def QUEUE_LENGTH : Nat := 10
def NUM_GPIO_PINS : Nat := 6
def GPIO_OUTPUT_PIN_1 : Int := 16
def GPIO_OUTPUT_PIN_2 : Int := 17
def GPIO_OUTPUT_PIN_3 : Int := 5
def GPIO_OUTPUT_PIN_4 : Int := 15
def GPIO_OUTPUT_PIN_5 : Int := 2
def GPIO_OUTPUT_PIN_6 : Int := 4

/-- The struct `GpioSettings` (lines 51-54). -/
structure GpioSettings where
  gpio_number : Int
  wait_ms : Nat
  deriving DecidableEq, Repr

/-- The table `gpio_settings` (lines 62-69). -/
def gpio_settings : List GpioSettings :=
  [ ⟨GPIO_OUTPUT_PIN_1, 1000⟩, ⟨GPIO_OUTPUT_PIN_2, 1000⟩, ⟨GPIO_OUTPUT_PIN_3, 1000⟩,
    ⟨GPIO_OUTPUT_PIN_4, 1000⟩, ⟨GPIO_OUTPUT_PIN_5, 1000⟩, ⟨GPIO_OUTPUT_PIN_6, 1000⟩ ]

/-- The array access `gpio_settings[i]` for a C `int` index; `none` outside the
array, where the access is undefined. -/
def gpio_settings_at (i : Int) : Option GpioSettings :=
  if i < 0 then none else gpio_settings.get? i.toNat

/-- A FreeRTOS queue of `int` items: its capacity and the items waiting, oldest
first. -/
structure Queue where
  uxLength : Nat
  items : List Int
  deriving DecidableEq, Repr

/-- The call `xQueueCreate(uxQueueLength, sizeof(int))`: an empty queue. -/
def xQueueCreate (uxQueueLength : Nat) : Queue :=
  { uxLength := uxQueueLength, items := [] }

/-- The call `xQueueSend(q, &item, 0)`: with no ticks to wait it never blocks; it
appends the item when there is room and reports `pdPASS` (`true`), otherwise it
leaves the queue alone and reports failure. -/
def xQueueSend (q : Queue) (item : Int) : Bool × Queue :=
  if q.items.length < q.uxLength then (true, { q with items := q.items ++ [item] })
  else (false, q)

/-- The call `uxQueueMessagesWaiting(q)`. -/
def uxQueueMessagesWaiting (q : Queue) : Nat := q.items.length

/-- The functions run as tasks: `dht22_task` by `dht22_init`, the other two by
`configure_threads`. -/
inductive TaskFn where
  | rele_queue_thread
  | rele_set_watering
  | dht22_task
  deriving DecidableEq, Repr

/-- The log lines of `reles.c`, by their arguments. -/
inductive RelesLog where
  | added (slot : Int)
  | count (queue_count : Nat)
  | queue_full
  | queue_create_failed
  deriving DecidableEq, Repr

/-- The file-level statics of `reles.c` together with the kernel objects they refer
to.  A handle is an index into `queues` or `tasks`; `NULL` is `none`; a deleted
object leaves `none` at its index. -/
structure Reles where
  gpio_queue_thread_handle : Option Nat
  gpio_watering_handle : Option Nat
  gpio_queue : Option Nat
  queues : List (Option Queue)
  tasks : List (Option TaskFn)
  ops : List HwOp
  log : List RelesLog
  deriving DecidableEq, Repr

/-- The statics before `reles_init`: zero-initialised handles, no kernel object. -/
def Reles.boot : Reles :=
  { gpio_queue_thread_handle := none, gpio_watering_handle := none, gpio_queue := none,
    queues := [], tasks := [], ops := [], log := [] }

/-- The queue a handle refers to, if it is a live queue. -/
def Reles.queue_at (s : Reles) (h : Option Nat) : Option Queue :=
  match h with
  | none => none
  | some i => (s.queues.get? i).join

/-- The function `configure_queue` (lines 212-219).  `alloc` tells whether the kernel
can allocate the queue; when it cannot, `xQueueCreate` returns `NULL`. -/
def configure_queue (alloc : Bool) (s : Reles) : Reles :=
  if alloc then
    { s with gpio_queue := some s.queues.length,
             queues := s.queues ++ [some (xQueueCreate QUEUE_LENGTH)] }
  else
    { s with gpio_queue := none, log := s.log ++ [.queue_create_failed] }

/-- The function `reles_add_watering` (lines 143-156).  `none` when `gpio_queue` is
not a live queue, where `xQueueSend` is undefined. -/
def reles_add_watering (slot : Int) (s : Reles) : Option Reles :=
  match s.gpio_queue with
  | none => none
  | some h =>
    match s.queue_at (some h) with
    | none => none
    | some q =>
      let r := xQueueSend q slot
      if r.1 then
        let s1 := { s with queues := s.queues.set h (some r.2) }
        let queue_count := uxQueueMessagesWaiting r.2
        some { s1 with log := s1.log ++ [.added slot, .count queue_count] }
      else
        some { s with log := s.log ++ [.queue_full] }

/-- What one pass through the body of a task loop does. -/
inductive Pass where
  | done (s : Reles)
  | blocked
  | undefined
  deriving DecidableEq, Repr

/-- One pass through the `while` body of `rele_queue_thread` (lines 165-176): with
an empty queue `xQueueReceive` waits (`blocked`); otherwise the oldest item is
taken and used as index into `gpio_settings`.  `undefined` when `gpio_queue`
is not a live queue or the index is outside the table.  The delay is recorded in
milliseconds. -/
def rele_queue_thread_pass (s : Reles) : Pass :=
  match s.gpio_queue with
  | none => .undefined
  | some h =>
    match s.queue_at (some h) with
    | none => .undefined
    | some q =>
      match q.items with
      | [] => .blocked
      | gpio_number :: rest =>
        match gpio_settings_at gpio_number with
        | none => .undefined
        | some g =>
          .done { s with
            queues := s.queues.set h (some { q with items := rest }),
            ops := s.ops ++ [.set_level g.gpio_number 0, .delay g.wait_ms,
              .set_level g.gpio_number 1] }

/-! ## Tasks -/

/-- The call `xTaskCreate(fn, ..., &handle)`.  When the kernel can allocate the task
(`alloc`) the task is added to the table and its handle is stored; otherwise the
handle variable keeps its value `handle`.  The result is the handle variable and
the table afterwards. -/
def xTaskCreate (alloc : Bool) (fn : TaskFn) (handle : Option Nat)
    (tasks : List (Option TaskFn)) : Option Nat × List (Option TaskFn) :=
  if alloc then (some tasks.length, tasks ++ [some fn]) else (handle, tasks)

/-- The call `vTaskDelete(h)` for a handle `h` that is not `NULL`. -/
def vTaskDelete (h : Nat) (tasks : List (Option TaskFn)) : List (Option TaskFn) :=
  tasks.set h none

/-- The number of live tasks that run `fn`. -/
def count_tasks (fn : TaskFn) (tasks : List (Option TaskFn)) : Nat :=
  tasks.count (some fn)

/-! ## dht22.c: start and stop -/

/-- The statics of `dht22.c` together with the table of tasks. -/
abbrev DhtSys := Dht × List (Option TaskFn)

/-- The function `set_dht_gpio` (lines 162-165). -/
def set_dht_gpio (gpio : Int) (s : Dht) : Dht :=
  { s with DHTgpio := gpio }

/-- The function `dht22_init` (lines 116-124).  `alloc` tells whether the kernel can
allocate the task.  The log line is not modelled. -/
def dht22_init (alloc : Bool) (p : DhtSys) : DhtSys :=
  if !p.1.dht22_task_running then
    let s1 := set_dht_gpio GPIO_DHT22 p.1
    let s2 := { s1 with dht22_task_running := true }
    let c := xTaskCreate alloc .dht22_task s2.dht22_task_handle p.2
    ({ s2 with dht22_task_handle := c.1 }, c.2)
  else p

/-- The function `dht22_deinit` (lines 126-134).  `none` when `vTaskDelete` is called
with `NULL`: it then deletes the calling task and does not return.  The log line
is not modelled. -/
def dht22_deinit (p : DhtSys) : Option DhtSys :=
  if p.1.dht22_task_running then
    match p.1.dht22_task_handle with
    | none => none
    | some h =>
      some ({ p.1 with dht22_task_handle := none, dht22_task_running := false },
        vTaskDelete h p.2)
  else some p

/-- One pass through the `while` body of `dht22_task` (lines 146-156): a read cycle
and the delay of 4000 ms.  `error_handler` and the log lines only print. -/
def dht22_task_pass (env : Env) (s : Dht) : Dht :=
  let r := read_dht env s
  { r.2 with ops := r.2.ops ++ [.delay 4000] }

/-- The `while` loop of `dht22_task` (lines 145-157), for at most `n` passes: the
loop ends when `dht22_task_running` is found false. -/
def dht22_task (env : Env) : Nat → Dht → Dht
  | 0, s => s
  | n + 1, s => if s.dht22_task_running then dht22_task env n (dht22_task_pass env s) else s

/-- The GPIO line an action is on, if any. -/
def HwOp.line : HwOp → Option Int
  | .set_direction gpio _ => some gpio
  | .set_level gpio _ => some gpio
  | .config_output gpio => some gpio
  | .delay _ => none

/-! ## reles.c: start, stop and the daily producer -/

def SECONDS_IN_ONE_DAY : Nat := 86400

/-- The function `configure_gpios` (lines 190-203): for each index below
`NUM_GPIO_PINS` the line of `gpio_settings[i]` is configured as output and then
driven to 1. -/
def configure_gpios (s : Reles) : Reles :=
  (List.range NUM_GPIO_PINS).foldl
    (fun (s : Reles) (i : Nat) =>
      match gpio_settings_at (Int.ofNat i) with
      | none => s
      | some g =>
        { s with ops := s.ops ++ [.config_output g.gpio_number, .set_level g.gpio_number 1] })
    s

/-- The function `configure_threads` (lines 206-209).  `alloc1` and `alloc2` tell
whether the kernel can allocate the first and the second task. -/
def configure_threads (alloc1 alloc2 : Bool) (s : Reles) : Reles :=
  let c1 := xTaskCreate alloc1 .rele_queue_thread s.gpio_queue_thread_handle s.tasks
  let c2 := xTaskCreate alloc2 .rele_set_watering s.gpio_watering_handle c1.2
  { s with gpio_queue_thread_handle := c1.1, gpio_watering_handle := c2.1, tasks := c2.2 }

/-- The function `reles_init` (lines 123-127). -/
def reles_init (allocq alloc1 alloc2 : Bool) (s : Reles) : Reles :=
  configure_threads alloc1 alloc2 (configure_gpios (configure_queue allocq s))

/-- The function `reles_deinit` (lines 130-141) called with the argument `q`.  Its
parameter is named `gpio_queue` and hides the static of that name: the queue
deleted is the argument, and the assignment of `NULL` at line 139 writes the
parameter, which dies with the call. -/
def reles_deinit (q : Option Nat) (s : Reles) : Reles :=
  let s1 :=
    match s.gpio_queue_thread_handle with
    | some t => { s with tasks := vTaskDelete t s.tasks, gpio_queue_thread_handle := none }
    | none => s
  match q with
  | some h => { s1 with queues := s1.queues.set h none }
  | none => s1

/-- The `for` loop of `rele_set_watering` (lines 182-184). -/
def rele_set_watering_burst (s : Reles) : Option Reles :=
  (List.range NUM_GPIO_PINS).foldlM
    (fun (s : Reles) (i : Nat) => reles_add_watering (Int.ofNat i) s) s

/-- One pass through the `while` body of `rele_set_watering` (lines 182-185): the
burst of requests, then the delay of one day, recorded in milliseconds. -/
def rele_set_watering_pass (s : Reles) : Option Reles :=
  (rele_set_watering_burst s).map
    (fun s => { s with ops := s.ops ++ [.delay (SECONDS_IN_ONE_DAY * 1000)] })

/-- The first `n` passes of the endless loop of `rele_set_watering` (line 181). -/
def rele_set_watering : Nat → Reles → Option Reles
  | 0, s => some s
  | n + 1, s => (rele_set_watering_pass s).bind (rele_set_watering n)

/-! ## The valves as seen on the trace -/

/-- The level last written to line `gpio` in the trace, if any. -/
def level_after (ops : List HwOp) (gpio : Int) : Option Int :=
  ops.foldl
    (fun lv op =>
      match op with
      | .set_level g l => if g = gpio then some l else lv
      | _ => lv)
    none

/-- The channels of `gpio_settings` whose line is at the open level 0 after the
trace. -/
def open_valves (ops : List HwOp) : List GpioSettings :=
  gpio_settings.filter (fun g => level_after ops g.gpio_number = some 0)

/-- The three actions of the consumer on one channel (lines 167-173). -/
def valve_pulse (g : GpioSettings) : List HwOp :=
  [.set_level g.gpio_number 0, .delay g.wait_ms, .set_level g.gpio_number 1]

/-- What happens next to the scheduler: a call of `reles_add_watering`, by any
task, or a pass of the consumer. -/
inductive Act where
  | add (slot : Int)
  | consume
  deriving DecidableEq, Repr

/-- One action on the scheduler.  A consumer that finds the queue empty waits and
changes nothing. -/
def Reles.act (s : Reles) : Act → Option Reles
  | .add slot => reles_add_watering slot s
  | .consume =>
    match rele_queue_thread_pass s with
    | .done s1 => some s1
    | .blocked => some s
    | .undefined => none

/-- A sequence of actions on the scheduler, in the order in which they happen. -/
def Reles.run (acts : List Act) (s : Reles) : Option Reles :=
  acts.foldlM Reles.act s

/-! ## The daily producer, statement by statement -/

/-- What one statement of `rele_set_watering` does: a call of `reles_add_watering`
or the call of `vTaskDelay`, its delay in milliseconds. -/
inductive ProducerEvent where
  | submit (slot : Int)
  | delay (ms : Nat)
  deriving DecidableEq, Repr

/-- One statement of `rele_set_watering` (lines 181-186), the task standing at the
test `i < NUM_GPIO_PINS` of its `for` loop.  While the test holds the statement
is the call `reles_add_watering(i)` of line 183, and `i` is incremented; when it
fails the statement is the `vTaskDelay` of line 185, after which the `while`
loop starts the `for` loop again with `i = 0`.  The result is what was done, the
next `i` and the state. -/
def rele_set_watering_step (i : Nat) (s : Reles) : Option (ProducerEvent × Nat × Reles) :=
  if i < NUM_GPIO_PINS then
    (reles_add_watering (Int.ofNat i) s).map fun s1 => (.submit (Int.ofNat i), i + 1, s1)
  else
    some (.delay (SECONDS_IN_ONE_DAY * 1000), 0,
      { s with ops := s.ops ++ [.delay (SECONDS_IN_ONE_DAY * 1000)] })

/-- The first `k` statements of `rele_set_watering` from the index `i`: what was done,
in order, the next index and the state. -/
def rele_set_watering_steps : Nat → Nat → Reles → Option (List ProducerEvent × Nat × Reles)
  | 0, i, s => some ([], i, s)
  | k + 1, i, s =>
    (rele_set_watering_step i s).bind fun r =>
      (rele_set_watering_steps k r.2.1 r.2.2).map fun t => (r.1 :: t.1, t.2.1, t.2.2)

/-! ### Input tapes for concrete runs -/

/-- The line during a transmission of `frame`, the same on every GPIO.

The sensor holds the line low for `ackLow` samples and high for `ackHigh + 1`
samples, goes low for one sample, and then sends bit after bit in slots of 82
samples: low for 10 samples when the bit is one and for 54 when it is zero, high
up to sample 80 of the slot, low at sample 81.  The waits of `read_dht` then
measure `ackLow` and `ackHigh` for the acknowledgement, and for each bit a low
phase of 10 or 54 and a high phase of 70 (one) or 26 (zero).  Bits are sent most
significant first; after the frame the sensor keeps sending zeros. -/
def dht_line (ackLow ackHigh : Nat) (frame : List Nat) : Env := fun _ k =>
  if k < ackLow then 0
  else if k < ackLow + ackHigh + 1 then 1
  else if k < ackLow + ackHigh + 2 then 0
  else
    let q := k - (ackLow + ackHigh + 2)
    let one := (frame.getD (q / 82 / 8) 0).testBit (7 - q / 82 % 8)
    if q % 82 < (if one then 10 else 54) then 0
    else if q % 82 < 81 then 1
    else 0

/-- The pulse widths that `dht_line` makes the bit loop measure for `frame`. -/
def frame_pulses (frame : List Nat) : List Int :=
  (List.range 40).map fun k => if (frame.getD (k / 8) 0).testBit (7 - k % 8) then 70 else 26

/-- The line of `dht_line` up to sample `stop`, stuck high from there on. -/
def stuck_line (stop : Nat) (env : Env) : Env := fun gpio k =>
  if k < stop then env gpio k else 1

/-! ### States for concrete runs of the scheduler -/

/-- A scheduler state with one live queue of ten slots that holds `items`. -/
def reles_with (items : List Int) : Reles :=
  { Reles.boot with gpio_queue := some 0, queues := [some ⟨QUEUE_LENGTH, items⟩] }

/-- The requests waiting in the queue that `gpio_queue` refers to. -/
def Reles.waiting (s : Reles) : List Int :=
  match s.queue_at s.gpio_queue with
  | none => []
  | some q => q.items


/-- The line `env` with the level on every line but `GPIO_DHT22` inverted. -/
def other_lines_inverted (env : Env) : Env := fun gpio k =>
  if gpio = GPIO_DHT22 then env gpio k else 1 - env gpio k


/-- The line that stays low for ever, on every GPIO. -/
def stuck_low : Env := fun _ _ => 0
/-! ### Auxiliary definitions for the proofs -/

/-- The effect of one loop iteration on the byte being filled (line 241). -/
def acc_bit (x b : Nat) (d : Int) : Nat :=
  if d > 40 then (x ||| (1 <<< b)) % 256 else x

/-- The value of a byte whose bits, most significant first, are decided by the
pulses `d0 .. d7`. -/
def byte_of_pulses (d0 d1 d2 d3 d4 d5 d6 d7 : Int) : Nat :=
  (if d0 > 40 then 128 else 0) + (if d1 > 40 then 64 else 0) + (if d2 > 40 then 32 else 0) +
  (if d3 > 40 then 16 else 0) + (if d4 > 40 then 8 else 0) + (if d5 > 40 then 4 else 0) +
  (if d6 > 40 then 2 else 0) + (if d7 > 40 then 1 else 0)

/-- The log lines of a burst of accepted requests `slots` on a queue that holds `n`
requests. -/
def burst_log : Nat → List Int → List RelesLog
  | _, [] => []
  | n, slot :: slots => [.added slot, .count (n + 1)] ++ burst_log (n + 1) slots

/-- Every valve line was last driven to the closed level 1. -/
def all_closed (ops : List HwOp) : Prop :=
  ∀ g, g ∈ gpio_settings → level_after ops g.gpio_number = some 1

/-! ## Lemmas on `get_signal_level` and the bit loop -/

/-- A value inside the range of `int` is not changed by the wrap. -/
theorem wrap_int_eq (x : Int) (h1 : -2147483648 ≤ x) (h2 : x ≤ INT_MAX) : wrap_int x = x := by
  unfold INT_MAX at h2
  unfold wrap_int
  omega

/-- The fuel given by `get_signal_level` is enough for a bound below `INT_MAX`: the
loop returns. -/
theorem get_signal_level_loop_fuel (env : Env) (gpio : Int) (usTimeOut : Int) (state : Bool)
    (hmax : usTimeOut < INT_MAX) :
    ∀ (fuel : Nat) (uSec : Int) (reads : Nat),
      0 ≤ uSec → (usTimeOut + 1 - uSec).toNat + 1 ≤ fuel →
      ∃ r, get_signal_level_loop env gpio usTimeOut state fuel uSec reads = some r := by
  intro fuel
  induction fuel with
  | zero => intro uSec reads _ h; omega
  | succ f ih =>
    intro uSec reads h0 h
    unfold get_signal_level_loop
    by_cases hl : env gpio reads = (if state then 1 else 0)
    · by_cases ht : uSec > usTimeOut
      · exact ⟨(-1, reads + 1), by simp [hl, ht]⟩
      · rw [wrap_int_eq (uSec + 1) (by omega) (by omega)]
        obtain ⟨r, hr⟩ := ih (uSec + 1) (reads + 1) (by omega) (by omega)
        exact ⟨r, by simp [hl, ht, hr]⟩
    · exact ⟨(uSec, reads + 1), by simp [hl]⟩

/-- For a bound below `INT_MAX` the value of `get_signal_level` is what its loop
returns. -/
theorem get_signal_level_eq_loop (env : Env) (gpio : Int) (usTimeOut : Int) (state : Bool)
    (reads : Nat) (hmax : usTimeOut < INT_MAX) :
    get_signal_level_loop env gpio usTimeOut state (usTimeOut.toNat + 2) 0 reads
      = some (get_signal_level env gpio usTimeOut state reads) := by
  obtain ⟨r, hr⟩ := get_signal_level_loop_fuel env gpio usTimeOut state hmax
    (usTimeOut.toNat + 2) 0 reads (le_refl 0) (by omega)
  simp [get_signal_level, hr]

theorem store_bit_length (bl : BitLoop) (uSec : Int) :
    (store_bit bl uSec).dhtData.length = bl.dhtData.length := by
  unfold store_bit
  split_ifs <;> simp

theorem read_dht_bits_length (env : Env) (gpio : Int) :
    ∀ (n : Nat) (bl bl1 : BitLoop) (reads r : Nat),
      read_dht_bits env gpio n bl reads = (some bl1, r) →
      bl1.dhtData.length = bl.dhtData.length := by
  intro n
  induction n with
  | zero =>
    intro bl bl1 reads r h
    simp [read_dht_bits] at h
    rw [← h.1]
  | succ n ih =>
    intro bl bl1 reads r h
    unfold read_dht_bits at h
    simp only at h
    split_ifs at h with h0 h1
    · simp at h
    · simp at h
    · rw [ih _ _ _ _ h, store_bit_length]

/-- When every wait of the bit loop succeeds, the loop is the fold of `store_bit`
over the measured high pulses. -/
theorem read_dht_bits_eq_foldl (env : Env) (gpio : Int) :
    ∀ (n : Nat) (bl : BitLoop) (reads r : Nat) (ds : List Int),
      measured_pulses env gpio n reads = some (ds, r) →
      read_dht_bits env gpio n bl reads = (some (ds.foldl store_bit bl), r) := by
  intro n
  induction n with
  | zero =>
    intro bl reads r ds h
    simp [measured_pulses] at h
    simp [read_dht_bits, h.1, h.2]
  | succ n ih =>
    intro bl reads r ds h
    unfold measured_pulses at h
    unfold read_dht_bits
    simp only at h ⊢
    split_ifs at h ⊢ with h0 h1
    cases hm : measured_pulses env gpio n
        (get_signal_level env gpio 75 true (get_signal_level env gpio 56 false reads).2).2 with
    | none => simp [hm] at h
    | some p =>
      simp [hm] at h
      rw [ih _ _ _ _ (by rw [hm])]
      simp [← h.1, h.2]

/-- The bit loop returns a frame exactly when the measurement of its pulses
succeeds. -/
theorem measured_pulses_of_read_dht_bits (env : Env) (gpio : Int) :
    ∀ (n : Nat) (bl bl1 : BitLoop) (reads r : Nat),
      read_dht_bits env gpio n bl reads = (some bl1, r) →
      ∃ ds, measured_pulses env gpio n reads = some (ds, r) := by
  intro n
  induction n with
  | zero =>
    intro bl bl1 reads r h
    simp [read_dht_bits] at h
    exact ⟨[], by simp [measured_pulses, h.2]⟩
  | succ n ih =>
    intro bl bl1 reads r h
    unfold read_dht_bits at h
    unfold measured_pulses
    simp only at h ⊢
    split_ifs at h ⊢ with h0 h1
    · simp at h
    · simp at h
    · obtain ⟨ds, hds⟩ := ih _ _ _ _ h
      exact ⟨(get_signal_level env gpio 75 true (get_signal_level env gpio 56 false reads).2).1 :: ds,
        by simp [hds]⟩

theorem measured_pulses_length (env : Env) (gpio : Int) :
    ∀ (n : Nat) (reads r : Nat) (ds : List Int),
      measured_pulses env gpio n reads = some (ds, r) → ds.length = n := by
  intro n
  induction n with
  | zero =>
    intro reads r ds h
    simp [measured_pulses] at h
    simp [← h.1]
  | succ n ih =>
    intro reads r ds h
    unfold measured_pulses at h
    simp only at h
    split_ifs at h with h0 h1
    cases hm : measured_pulses env gpio n
        (get_signal_level env gpio 75 true (get_signal_level env gpio 56 false reads).2).2 with
    | none => simp [hm] at h
    | some p =>
      simp [hm] at h
      have := ih _ _ _ (by rw [hm])
      simp [← h.1, this]

theorem list_set_getD_self (data : List Nat) (i : Nat) : data.set i (data.getD i 0) = data := by
  apply List.ext_getElem (by simp)
  intro n h1 h2
  by_cases hn : i = n
  · subst hn
    have hi : i < data.length := by simpa using h1
    simp [List.getD_eq_getElem?_getD, List.getElem?_eq_getElem hi]
  · simp [List.getElem_set_ne hn]

theorem list_getD_set_self (data : List Nat) (i v : Nat) (hi : i < data.length) :
    (data.set i v).getD i 0 = v := by
  simp [List.getD_eq_getElem?_getD, List.getElem?_set_self hi]

/-- One step of `store_bit` with the bit index above zero. -/
theorem store_bit_succ (data : List Nat) (i b : Nat) (d : Int) :
    store_bit ⟨data, i, b + 1⟩ d =
      ⟨data.set i (acc_bit (data.getD i 0) (b + 1) d), i, b⟩ := by
  unfold store_bit acc_bit
  by_cases hd : d > 40
  · simp only [hd, if_true, Nat.add_one_ne_zero, if_false, Nat.add_sub_cancel]
  · simp only [hd, if_false, Nat.add_one_ne_zero, Nat.add_sub_cancel, list_set_getD_self]

/-- One step of `store_bit` with the bit index at zero. -/
theorem store_bit_zero (data : List Nat) (i : Nat) (d : Int) :
    store_bit ⟨data, i, 0⟩ d =
      ⟨data.set i (acc_bit (data.getD i 0) 0 d), (i + 1) % 256, 7⟩ := by
  unfold store_bit acc_bit
  by_cases hd : d > 40
  · simp only [hd, if_true]
  · simp only [hd, if_false, if_true, list_set_getD_self]

theorem acc_bit_byte (d0 d1 d2 d3 d4 d5 d6 d7 : Int) :
    acc_bit (acc_bit (acc_bit (acc_bit (acc_bit (acc_bit (acc_bit (acc_bit 0 (6 + 1) d0) (5 + 1) d1)
      (4 + 1) d2) (3 + 1) d3) (2 + 1) d4) (1 + 1) d5) (0 + 1) d6) 0 d7
      = byte_of_pulses d0 d1 d2 d3 d4 d5 d6 d7 := by
  have key : ∀ c0 c1 c2 c3 c4 c5 c6 c7 : Bool,
      (fun (x b : Nat) (c : Bool) => if c then (x ||| (1 <<< b)) % 256 else x)
        ((fun (x b : Nat) (c : Bool) => if c then (x ||| (1 <<< b)) % 256 else x)
        ((fun (x b : Nat) (c : Bool) => if c then (x ||| (1 <<< b)) % 256 else x)
        ((fun (x b : Nat) (c : Bool) => if c then (x ||| (1 <<< b)) % 256 else x)
        ((fun (x b : Nat) (c : Bool) => if c then (x ||| (1 <<< b)) % 256 else x)
        ((fun (x b : Nat) (c : Bool) => if c then (x ||| (1 <<< b)) % 256 else x)
        ((fun (x b : Nat) (c : Bool) => if c then (x ||| (1 <<< b)) % 256 else x)
        ((fun (x b : Nat) (c : Bool) => if c then (x ||| (1 <<< b)) % 256 else x)
          0 7 c0) 6 c1) 5 c2) 4 c3) 3 c4) 2 c5) 1 c6) 0 c7
      = (if c0 then 128 else 0) + (if c1 then 64 else 0) + (if c2 then 32 else 0) +
        (if c3 then 16 else 0) + (if c4 then 8 else 0) + (if c5 then 4 else 0) +
        (if c6 then 2 else 0) + (if c7 then 1 else 0) := by decide
  have h := key (decide (d0 > 40)) (decide (d1 > 40)) (decide (d2 > 40)) (decide (d3 > 40))
    (decide (d4 > 40)) (decide (d5 > 40)) (decide (d6 > 40)) (decide (d7 > 40))
  simp only [decide_eq_true_eq] at h
  exact h

/-- Eight iterations of the loop body fill one cleared byte and move to the next. -/
theorem foldl_store_bit_byte (data : List Nat) (i : Nat) (d0 d1 d2 d3 d4 d5 d6 d7 : Int)
    (rest : List Int) (hi : i < data.length) (hi5 : i < 255) (h0 : data.getD i 0 = 0) :
    (d0 :: d1 :: d2 :: d3 :: d4 :: d5 :: d6 :: d7 :: rest).foldl store_bit ⟨data, i, 7⟩ =
      rest.foldl store_bit ⟨data.set i (byte_of_pulses d0 d1 d2 d3 d4 d5 d6 d7), i + 1, 7⟩ := by
  have hg : ∀ v, (data.set i v).getD i 0 = v := fun v => list_getD_set_self data i v hi
  have hmod : (i + 1) % 256 = i + 1 := by omega
  rw [List.foldl_cons, store_bit_succ, h0]
  rw [List.foldl_cons, store_bit_succ, List.set_set, hg]
  rw [List.foldl_cons, store_bit_succ, List.set_set, hg]
  rw [List.foldl_cons, store_bit_succ, List.set_set, hg]
  rw [List.foldl_cons, store_bit_succ, List.set_set, hg]
  rw [List.foldl_cons, store_bit_succ, List.set_set, hg]
  rw [List.foldl_cons, store_bit_succ, List.set_set, hg]
  rw [List.foldl_cons, store_bit_zero, List.set_set, hg, hmod]
  rw [← acc_bit_byte]


/-- A list of forty pulses, written out. -/
theorem forty_pulses (ds : List Int) (hlen : ds.length = 40) :
    ∃ d0 d1 d2 d3 d4 d5 d6 d7 d8 d9 d10 d11 d12 d13 d14 d15 d16 d17 d18 d19 d20 d21 d22 d23 d24
      d25 d26 d27 d28 d29 d30 d31 d32 d33 d34 d35 d36 d37 d38 d39 : Int,
      ds = [d0, d1, d2, d3, d4, d5, d6, d7, d8, d9, d10, d11, d12, d13, d14, d15, d16, d17, d18, d19, d20, d21, d22, d23, d24, d25, d26, d27, d28, d29, d30, d31, d32, d33, d34, d35, d36, d37, d38, d39] := by
  obtain ⟨d0, ds, rfl⟩ := List.exists_cons_of_length_eq_add_one (show ds.length = 39 + 1 from hlen)
  replace hlen : ds.length = 39 := by simpa using hlen
  obtain ⟨d1, ds, rfl⟩ := List.exists_cons_of_length_eq_add_one (show ds.length = 38 + 1 from hlen)
  replace hlen : ds.length = 38 := by simpa using hlen
  obtain ⟨d2, ds, rfl⟩ := List.exists_cons_of_length_eq_add_one (show ds.length = 37 + 1 from hlen)
  replace hlen : ds.length = 37 := by simpa using hlen
  obtain ⟨d3, ds, rfl⟩ := List.exists_cons_of_length_eq_add_one (show ds.length = 36 + 1 from hlen)
  replace hlen : ds.length = 36 := by simpa using hlen
  obtain ⟨d4, ds, rfl⟩ := List.exists_cons_of_length_eq_add_one (show ds.length = 35 + 1 from hlen)
  replace hlen : ds.length = 35 := by simpa using hlen
  obtain ⟨d5, ds, rfl⟩ := List.exists_cons_of_length_eq_add_one (show ds.length = 34 + 1 from hlen)
  replace hlen : ds.length = 34 := by simpa using hlen
  obtain ⟨d6, ds, rfl⟩ := List.exists_cons_of_length_eq_add_one (show ds.length = 33 + 1 from hlen)
  replace hlen : ds.length = 33 := by simpa using hlen
  obtain ⟨d7, ds, rfl⟩ := List.exists_cons_of_length_eq_add_one (show ds.length = 32 + 1 from hlen)
  replace hlen : ds.length = 32 := by simpa using hlen
  obtain ⟨d8, ds, rfl⟩ := List.exists_cons_of_length_eq_add_one (show ds.length = 31 + 1 from hlen)
  replace hlen : ds.length = 31 := by simpa using hlen
  obtain ⟨d9, ds, rfl⟩ := List.exists_cons_of_length_eq_add_one (show ds.length = 30 + 1 from hlen)
  replace hlen : ds.length = 30 := by simpa using hlen
  obtain ⟨d10, ds, rfl⟩ := List.exists_cons_of_length_eq_add_one (show ds.length = 29 + 1 from hlen)
  replace hlen : ds.length = 29 := by simpa using hlen
  obtain ⟨d11, ds, rfl⟩ := List.exists_cons_of_length_eq_add_one (show ds.length = 28 + 1 from hlen)
  replace hlen : ds.length = 28 := by simpa using hlen
  obtain ⟨d12, ds, rfl⟩ := List.exists_cons_of_length_eq_add_one (show ds.length = 27 + 1 from hlen)
  replace hlen : ds.length = 27 := by simpa using hlen
  obtain ⟨d13, ds, rfl⟩ := List.exists_cons_of_length_eq_add_one (show ds.length = 26 + 1 from hlen)
  replace hlen : ds.length = 26 := by simpa using hlen
  obtain ⟨d14, ds, rfl⟩ := List.exists_cons_of_length_eq_add_one (show ds.length = 25 + 1 from hlen)
  replace hlen : ds.length = 25 := by simpa using hlen
  obtain ⟨d15, ds, rfl⟩ := List.exists_cons_of_length_eq_add_one (show ds.length = 24 + 1 from hlen)
  replace hlen : ds.length = 24 := by simpa using hlen
  obtain ⟨d16, ds, rfl⟩ := List.exists_cons_of_length_eq_add_one (show ds.length = 23 + 1 from hlen)
  replace hlen : ds.length = 23 := by simpa using hlen
  obtain ⟨d17, ds, rfl⟩ := List.exists_cons_of_length_eq_add_one (show ds.length = 22 + 1 from hlen)
  replace hlen : ds.length = 22 := by simpa using hlen
  obtain ⟨d18, ds, rfl⟩ := List.exists_cons_of_length_eq_add_one (show ds.length = 21 + 1 from hlen)
  replace hlen : ds.length = 21 := by simpa using hlen
  obtain ⟨d19, ds, rfl⟩ := List.exists_cons_of_length_eq_add_one (show ds.length = 20 + 1 from hlen)
  replace hlen : ds.length = 20 := by simpa using hlen
  obtain ⟨d20, ds, rfl⟩ := List.exists_cons_of_length_eq_add_one (show ds.length = 19 + 1 from hlen)
  replace hlen : ds.length = 19 := by simpa using hlen
  obtain ⟨d21, ds, rfl⟩ := List.exists_cons_of_length_eq_add_one (show ds.length = 18 + 1 from hlen)
  replace hlen : ds.length = 18 := by simpa using hlen
  obtain ⟨d22, ds, rfl⟩ := List.exists_cons_of_length_eq_add_one (show ds.length = 17 + 1 from hlen)
  replace hlen : ds.length = 17 := by simpa using hlen
  obtain ⟨d23, ds, rfl⟩ := List.exists_cons_of_length_eq_add_one (show ds.length = 16 + 1 from hlen)
  replace hlen : ds.length = 16 := by simpa using hlen
  obtain ⟨d24, ds, rfl⟩ := List.exists_cons_of_length_eq_add_one (show ds.length = 15 + 1 from hlen)
  replace hlen : ds.length = 15 := by simpa using hlen
  obtain ⟨d25, ds, rfl⟩ := List.exists_cons_of_length_eq_add_one (show ds.length = 14 + 1 from hlen)
  replace hlen : ds.length = 14 := by simpa using hlen
  obtain ⟨d26, ds, rfl⟩ := List.exists_cons_of_length_eq_add_one (show ds.length = 13 + 1 from hlen)
  replace hlen : ds.length = 13 := by simpa using hlen
  obtain ⟨d27, ds, rfl⟩ := List.exists_cons_of_length_eq_add_one (show ds.length = 12 + 1 from hlen)
  replace hlen : ds.length = 12 := by simpa using hlen
  obtain ⟨d28, ds, rfl⟩ := List.exists_cons_of_length_eq_add_one (show ds.length = 11 + 1 from hlen)
  replace hlen : ds.length = 11 := by simpa using hlen
  obtain ⟨d29, ds, rfl⟩ := List.exists_cons_of_length_eq_add_one (show ds.length = 10 + 1 from hlen)
  replace hlen : ds.length = 10 := by simpa using hlen
  obtain ⟨d30, ds, rfl⟩ := List.exists_cons_of_length_eq_add_one (show ds.length = 9 + 1 from hlen)
  replace hlen : ds.length = 9 := by simpa using hlen
  obtain ⟨d31, ds, rfl⟩ := List.exists_cons_of_length_eq_add_one (show ds.length = 8 + 1 from hlen)
  replace hlen : ds.length = 8 := by simpa using hlen
  obtain ⟨d32, ds, rfl⟩ := List.exists_cons_of_length_eq_add_one (show ds.length = 7 + 1 from hlen)
  replace hlen : ds.length = 7 := by simpa using hlen
  obtain ⟨d33, ds, rfl⟩ := List.exists_cons_of_length_eq_add_one (show ds.length = 6 + 1 from hlen)
  replace hlen : ds.length = 6 := by simpa using hlen
  obtain ⟨d34, ds, rfl⟩ := List.exists_cons_of_length_eq_add_one (show ds.length = 5 + 1 from hlen)
  replace hlen : ds.length = 5 := by simpa using hlen
  obtain ⟨d35, ds, rfl⟩ := List.exists_cons_of_length_eq_add_one (show ds.length = 4 + 1 from hlen)
  replace hlen : ds.length = 4 := by simpa using hlen
  obtain ⟨d36, ds, rfl⟩ := List.exists_cons_of_length_eq_add_one (show ds.length = 3 + 1 from hlen)
  replace hlen : ds.length = 3 := by simpa using hlen
  obtain ⟨d37, ds, rfl⟩ := List.exists_cons_of_length_eq_add_one (show ds.length = 2 + 1 from hlen)
  replace hlen : ds.length = 2 := by simpa using hlen
  obtain ⟨d38, ds, rfl⟩ := List.exists_cons_of_length_eq_add_one (show ds.length = 1 + 1 from hlen)
  replace hlen : ds.length = 1 := by simpa using hlen
  obtain ⟨d39, ds, rfl⟩ := List.exists_cons_of_length_eq_add_one (show ds.length = 0 + 1 from hlen)
  replace hlen : ds.length = 0 := by simpa using hlen
  have : ds = [] := List.length_eq_zero.mp hlen
  subst this
  exact ⟨d0, d1, d2, d3, d4, d5, d6, d7, d8, d9, d10, d11, d12, d13, d14, d15, d16, d17, d18, d19, d20, d21, d22, d23, d24, d25, d26, d27, d28, d29, d30, d31, d32, d33, d34, d35, d36, d37, d38, d39, rfl⟩

/-- Forty iterations of the loop body on the cleared array. -/
theorem foldl_store_bit_frame (ds : List Int) (hlen : ds.length = 40) :
    ∃ data, ds.foldl store_bit ⟨List.replicate MAXdhtData 0, 0, 7⟩ = ⟨data, 5, 7⟩ ∧
      data.length = 5 ∧
      ∀ i, i < 5 → data.getD i 0 =
        ∑ j in Finset.range 8, (if ds.getD (8 * i + j) 0 > 40 then 1 else 0) * 2 ^ (7 - j) := by
  obtain ⟨d0, d1, d2, d3, d4, d5, d6, d7, d8, d9, d10, d11, d12, d13, d14, d15, d16, d17, d18, d19,
    d20, d21, d22, d23, d24, d25, d26, d27, d28, d29, d30, d31, d32, d33, d34, d35, d36, d37, d38,
    d39, rfl⟩ := forty_pulses ds hlen
  refine ⟨[byte_of_pulses d0 d1 d2 d3 d4 d5 d6 d7, byte_of_pulses d8 d9 d10 d11 d12 d13 d14 d15,
    byte_of_pulses d16 d17 d18 d19 d20 d21 d22 d23, byte_of_pulses d24 d25 d26 d27 d28 d29 d30 d31,
    byte_of_pulses d32 d33 d34 d35 d36 d37 d38 d39], ?_, rfl, ?_⟩
  · rw [foldl_store_bit_byte _ 0 _ _ _ _ _ _ _ _ _ (by simp [MAXdhtData]) (by decide) (by rfl)]
    rw [foldl_store_bit_byte _ 1 _ _ _ _ _ _ _ _ _ (by simp [MAXdhtData]) (by decide) (by rfl)]
    rw [foldl_store_bit_byte _ 2 _ _ _ _ _ _ _ _ _ (by simp [MAXdhtData]) (by decide) (by rfl)]
    rw [foldl_store_bit_byte _ 3 _ _ _ _ _ _ _ _ _ (by simp [MAXdhtData]) (by decide) (by rfl)]
    rw [foldl_store_bit_byte _ 4 _ _ _ _ _ _ _ _ _ (by simp [MAXdhtData]) (by decide) (by rfl)]
    rfl
  · intro i hi
    interval_cases i <;>
      simp [byte_of_pulses, Finset.sum_range_succ, List.getD_eq_getElem?_getD]
theorem read_dht_of_frame (env : Env) (s : Dht) (frame : List Nat) (r : Nat)
    (hrx : read_dht_receive env s = (some frame, r)) :
    read_dht env s =
      read_dht_decode frame { s with ops := s.ops ++ start_signal s.DHTgpio, reads := r } := by
  simp [read_dht, hrx]

theorem read_dht_of_timeout (env : Env) (s : Dht) (r : Nat)
    (hrx : read_dht_receive env s = (none, r)) :
    read_dht env s =
      (DHT_TIMEOUT_ERROR, { s with ops := s.ops ++ start_signal s.DHTgpio, reads := r }) := by
  simp [read_dht, hrx]

/-- The test `x & 0x80` of line 264 looks at bit 7. -/
theorem and_0x80_ne_zero (x : Nat) : x &&& 0x80 ≠ 0 ↔ x.testBit 7 = true := by
  have h128 : (0x80 : Nat) = 2 ^ 7 := by norm_num
  constructor
  · intro h
    by_contra hb
    apply h
    apply Nat.eq_of_testBit_eq
    intro i
    rw [Nat.testBit_and, h128, Nat.testBit_two_pow]
    by_cases hi : 7 = i
    · subst hi; simp [hb]
    · simp [hi]
  · intro hb h
    have : (x &&& 0x80).testBit 7 = true := by
      rw [Nat.testBit_and, h128, Nat.testBit_two_pow_self, hb]; rfl
    rw [h] at this
    simp at this

/-- The mask `& 0xFF` of line 271 is the remainder modulo 256. -/
theorem and_0xFF (x : Nat) : x &&& 0xFF = x % 256 := by
  have := Nat.and_pow_two_sub_one_eq_mod x 8
  simpa using this

/-- The decode of lines 250-278 on a five-byte frame. -/
theorem read_dht_decode_frame (b0 b1 b2 b3 b4 : Nat) (s : Dht) :
    read_dht_decode [b0, b1, b2, b3, b4] s =
      (if b4 = (b0 + b1 + b2 + b3) % 256 then DHT_OK else DHT_CHECKSUM_ERROR,
        { s with
          humidity := (256 * (b0 : ℚ) + b1) / 10,
          temperature :=
            (if b2.testBit 7 = true then -1 else 1) * (256 * ((b2 &&& 0x7F : ℕ) : ℚ) + b3) / 10 }) := by
  have hh : ((b0 : ℚ) * 0x100 + b1) / 10 = (256 * (b0 : ℚ) + b1) / 10 := by ring
  unfold read_dht_decode
  simp only [List.getD_cons_zero, List.getD_cons_succ, and_0xFF, and_0x80_ne_zero, hh]
  cases hs : b2.testBit 7 <;> by_cases hc : b4 = (b0 + b1 + b2 + b3) % 256 <;>
    simp only [hc, if_true, if_false, Bool.false_eq_true] <;> congr 2 <;> ring

theorem five_bytes (l : List Nat) (h : l.length = 5) :
    ∃ b0 b1 b2 b3 b4, l = [b0, b1, b2, b3, b4] := by
  match l, h with
  | [b0, b1, b2, b3, b4], _ => exact ⟨b0, b1, b2, b3, b4, rfl⟩

/-- When the two acknowledgement waits succeed and the forty pulses are measured,
the receive phase returns the frame folded from the pulses. -/
theorem read_dht_receive_of_pulses (env : Env) (s : Dht) (ds : List Int) (r : Nat)
    (h0 : 0 ≤ (get_signal_level env s.DHTgpio 85 false s.reads).1)
    (h1 : 0 ≤ (get_signal_level env s.DHTgpio 85 true
      (get_signal_level env s.DHTgpio 85 false s.reads).2).1)
    (h2 : measured_pulses env s.DHTgpio 40
      (get_signal_level env s.DHTgpio 85 true
        (get_signal_level env s.DHTgpio 85 false s.reads).2).2 = some (ds, r)) :
    read_dht_receive env s =
      (some (ds.foldl store_bit ⟨List.replicate MAXdhtData 0, 0, 7⟩).dhtData, r) := by
  unfold read_dht_receive
  simp only [not_lt.mpr h0, not_lt.mpr h1, if_false]
  rw [read_dht_bits_eq_foldl env s.DHTgpio 40 _ _ r ds h2]
  rfl

/-- The status returned by the decode is never the timeout status. -/
theorem read_dht_decode_status (frame : List Nat) (s : Dht) :
    (read_dht_decode frame s).1 = DHT_OK ∨ (read_dht_decode frame s).1 = DHT_CHECKSUM_ERROR := by
  unfold read_dht_decode
  simp only
  by_cases hc : frame.getD 4 0 = (frame.getD 0 0 + frame.getD 1 0 + frame.getD 2 0 + frame.getD 3 0) &&& 0xFF
  · left; rw [if_pos hc]
  · right; rw [if_neg hc]


/-- The table `gpio_settings` has an entry exactly at the indices `0 .. 5`. -/
theorem gpio_settings_at_isSome (i : Int) :
    (gpio_settings_at i).isSome = true ↔ (0 ≤ i ∧ i < NUM_GPIO_PINS) := by
  unfold gpio_settings_at NUM_GPIO_PINS
  by_cases hneg : i < 0
  · simp [hneg]
  · rw [if_neg hneg]
    have : gpio_settings.length = 6 := rfl
    rw [List.get?_eq_getElem?, ← Option.ne_none_iff_isSome, ne_eq, List.getElem?_eq_none_iff]
    omega

/-- A handle that refers to a live queue is an index of the list of queues. -/
theorem queue_at_lt (s : Reles) (h : Nat) (q : Queue) (hl : s.queue_at (some h) = some q) :
    h < s.queues.length := by
  simp only [Reles.queue_at] at hl
  by_contra hn
  rw [List.get?_eq_none.mpr (by omega)] at hl
  simp at hl

/-- What the loop of `get_signal_level` returns for a bound below `INT_MAX`, from
any point of its run: either
`-1` after the line stayed at `state` until the counter passed the bound, or the
counter at the first sample that differs from `state`. -/
theorem get_signal_level_loop_spec (env : Env) (gpio : Int) (usTimeOut : Int) (state : Bool)
    (hmax : usTimeOut < INT_MAX) :
    ∀ (fuel : Nat) (uSec : Int) (reads : Nat) (r : Int × Nat),
      get_signal_level_loop env gpio usTimeOut state fuel uSec reads = some r →
      0 ≤ uSec → uSec ≤ usTimeOut + 1 →
      (r = (-1, reads + (usTimeOut + 2 - uSec).toNat) ∧
        ∀ i, i < (usTimeOut + 2 - uSec).toNat →
          env gpio (reads + i) = (if state then 1 else 0)) ∨
      (∃ n : Nat, uSec + n ≤ usTimeOut + 1 ∧ r = (uSec + n, reads + n + 1) ∧
        (∀ i, i < n → env gpio (reads + i) = (if state then 1 else 0)) ∧
        env gpio (reads + n) ≠ (if state then 1 else 0)) := by
  intro fuel
  induction fuel with
  | zero => intro uSec reads r h; simp [get_signal_level_loop] at h
  | succ f ih =>
    intro uSec reads r h h0 h1
    unfold get_signal_level_loop at h
    by_cases hl : env gpio reads = (if state then 1 else 0)
    · rw [if_pos hl] at h
      by_cases ht : uSec > usTimeOut
      · rw [if_pos ht] at h
        left
        have hone : (usTimeOut + 2 - uSec).toNat = 1 := by omega
        refine ⟨?_, ?_⟩
        · rw [hone]; exact (Option.some.inj h).symm
        · intro i hi
          rw [hone] at hi
          have : i = 0 := by omega
          subst this
          simpa using hl
      · rw [if_neg ht, wrap_int_eq (uSec + 1) (by omega) (by omega)] at h
        rcases ih (uSec + 1) (reads + 1) r h (by omega) (by omega) with ⟨hr, hall⟩ | ⟨n, hn, hr, hall, hne⟩
        · left
          have hsucc : (usTimeOut + 2 - uSec).toNat = (usTimeOut + 2 - (uSec + 1)).toNat + 1 := by
            omega
          refine ⟨?_, ?_⟩
          · rw [hr, hsucc]; congr 1; omega
          · intro i hi
            rcases Nat.eq_zero_or_pos i with rfl | hpos
            · simpa using hl
            · have := hall (i - 1) (by omega)
              rwa [show reads + 1 + (i - 1) = reads + i by omega] at this
        · right
          refine ⟨n + 1, by push_cast; omega, ?_, ?_, ?_⟩
          · rw [hr]; push_cast; congr 1 <;> omega
          · intro i hi
            rcases Nat.eq_zero_or_pos i with rfl | hpos
            · simpa using hl
            · have := hall (i - 1) (by omega)
              rwa [show reads + 1 + (i - 1) = reads + i by omega] at this
          · rwa [show reads + (n + 1) = reads + 1 + n by omega]
    · rw [if_neg hl] at h
      right
      exact ⟨0, by simpa using h1, by simpa using (Option.some.inj h).symm, by simp,
        by simpa using hl⟩

/-- The indices after one loop iteration, from position `j` of the forty. -/
theorem store_bit_position (bl : BitLoop) (uSec : Int) (j : Nat) (hj : j < 40)
    (hby : bl.byteInx = j / 8) (hbi : bl.bitInx = 7 - j % 8) :
    (store_bit bl uSec).byteInx = (j + 1) / 8 ∧ (store_bit bl uSec).bitInx = 7 - (j + 1) % 8 := by
  unfold store_bit
  by_cases hz : bl.bitInx = 0
  · simp only [hz, if_true]
    constructor <;> omega
  · simp only [hz, if_false]
    constructor <;> omega

/-- The indices after `n` iterations of the bit loop that starts at position `j`. -/
theorem read_dht_bits_position (env : Env) (gpio : Int) :
    ∀ (n j : Nat) (bl bl1 : BitLoop) (reads r : Nat),
      j + n ≤ 40 → bl.byteInx = j / 8 → bl.bitInx = 7 - j % 8 →
      read_dht_bits env gpio n bl reads = (some bl1, r) →
      bl1.byteInx = (j + n) / 8 ∧ bl1.bitInx = 7 - (j + n) % 8 := by
  intro n
  induction n with
  | zero =>
    intro j bl bl1 reads r _ hby hbi h
    simp [read_dht_bits] at h
    rw [← h.1]
    exact ⟨hby, hbi⟩
  | succ n ih =>
    intro j bl bl1 reads r hjn hby hbi h
    unfold read_dht_bits at h
    simp only at h
    split_ifs at h with h0 h1
    · simp at h
    · simp at h
    · obtain ⟨e1, e2⟩ := store_bit_position bl
        (get_signal_level env gpio 75 true (get_signal_level env gpio 56 false reads).2).1
        j (by omega) hby hbi
      have := ih (j + 1) _ bl1 _ r (by omega) e1 e2 h
      rwa [show j + 1 + n = j + (n + 1) by omega] at this

/-- The loop of `get_signal_level` reads no other line than `gpio`. -/
theorem get_signal_level_loop_congr (env env1 : Env) (gpio : Int) (usTimeOut : Int)
    (state : Bool) (hagree : ∀ k, env gpio k = env1 gpio k) :
    ∀ (fuel : Nat) (uSec : Int) (reads : Nat),
      get_signal_level_loop env gpio usTimeOut state fuel uSec reads
        = get_signal_level_loop env1 gpio usTimeOut state fuel uSec reads := by
  intro fuel
  induction fuel with
  | zero => intro uSec reads; rfl
  | succ f ih =>
    intro uSec reads
    unfold get_signal_level_loop
    rw [hagree reads, ih]

theorem get_signal_level_congr (env env1 : Env) (gpio : Int) (usTimeOut : Int)
    (state : Bool) (reads : Nat) (hagree : ∀ k, env gpio k = env1 gpio k) :
    get_signal_level env gpio usTimeOut state reads
      = get_signal_level env1 gpio usTimeOut state reads := by
  unfold get_signal_level
  rw [get_signal_level_loop_congr env env1 gpio usTimeOut state hagree]

theorem read_dht_bits_congr (env env1 : Env) (gpio : Int)
    (hagree : ∀ k, env gpio k = env1 gpio k) :
    ∀ (n : Nat) (bl : BitLoop) (reads : Nat),
      read_dht_bits env gpio n bl reads = read_dht_bits env1 gpio n bl reads := by
  intro n
  induction n with
  | zero => intro bl reads; rfl
  | succ n ih =>
    intro bl reads
    unfold read_dht_bits
    simp only [get_signal_level_congr env env1 gpio _ _ _ hagree, ih]

/-- A read cycle reads no other line than `DHTgpio`. -/
theorem read_dht_congr (env env1 : Env) (s : Dht)
    (hagree : ∀ k, env s.DHTgpio k = env1 s.DHTgpio k) :
    read_dht env s = read_dht env1 s := by
  unfold read_dht read_dht_receive
  simp only [get_signal_level_congr env env1 s.DHTgpio _ _ _ hagree,
    read_dht_bits_congr env env1 s.DHTgpio hagree]

/-- A read cycle changes neither `DHTgpio` nor the running flag nor the task handle,
and adds the start signal on `DHTgpio` to the trace. -/
theorem read_dht_frame_statics (env : Env) (s : Dht) :
    (read_dht env s).2.DHTgpio = s.DHTgpio ∧
    (read_dht env s).2.dht22_task_running = s.dht22_task_running ∧
    (read_dht env s).2.dht22_task_handle = s.dht22_task_handle ∧
    (read_dht env s).2.ops = s.ops ++ start_signal s.DHTgpio := by
  cases hrx : read_dht_receive env s with
  | mk frame r =>
    cases frame with
    | none =>
      rw [read_dht_of_timeout env s r hrx]
      exact ⟨rfl, rfl, rfl, rfl⟩
    | some frame =>
      rw [read_dht_of_frame env s frame r hrx]
      unfold read_dht_decode
      simp only
      split_ifs <;> exact ⟨rfl, rfl, rfl, rfl⟩

/-- The passes of `dht22_task` keep `DHTgpio`, act on no other line, and read no
other line. -/
theorem dht22_task_line (env env1 : Env) :
    ∀ (n : Nat) (s : Dht),
      (dht22_task env n s).DHTgpio = s.DHTgpio ∧
      (∀ op, op ∈ (dht22_task env n s).ops →
        op ∈ s.ops ∨ op.line = some s.DHTgpio ∨ op = .delay 4000) ∧
      ((∀ k, env s.DHTgpio k = env1 s.DHTgpio k) →
        dht22_task env n s = dht22_task env1 n s) := by
  intro n
  induction n with
  | zero =>
    intro s
    exact ⟨rfl, fun op h => Or.inl h, fun _ => rfl⟩
  | succ n ih =>
    intro s
    unfold dht22_task
    cases hr : s.dht22_task_running
    · rw [if_neg (by decide)]
      exact ⟨rfl, fun op h => Or.inl h, fun _ => rfl⟩
    · rw [if_pos rfl]
      obtain ⟨hg, _, _, hops⟩ := read_dht_frame_statics env s
      have hpg : (dht22_task_pass env s).DHTgpio = s.DHTgpio := hg
      have hpo : (dht22_task_pass env s).ops
          = s.ops ++ start_signal s.DHTgpio ++ [.delay 4000] := by
        simp [dht22_task_pass, hops]
      obtain ⟨i1, i2, i3⟩ := ih (dht22_task_pass env s)
      refine ⟨by rw [i1, hpg], ?_, ?_⟩
      · intro op hop
        rcases i2 op hop with h | h | h
        · rw [hpo] at h
          simp only [List.mem_append, List.mem_singleton] at h
          rcases h with (h | h) | h
          · exact Or.inl h
          · right; left
            simp only [start_signal, List.mem_cons, List.mem_singleton, List.not_mem_nil,
              or_false] at h
            rcases h with h | h | h | h | h <;> rw [h] <;> rfl
          · exact Or.inr (Or.inr h)
        · rw [hpg] at h; exact Or.inr (Or.inl h)
        · exact Or.inr (Or.inr h)
      · intro hagree
        have hpass : dht22_task_pass env s = dht22_task_pass env1 s := by
          unfold dht22_task_pass
          rw [read_dht_congr env env1 s hagree]
        rw [i3 (by rw [hpg]; exact hagree), hpass, if_pos rfl]

/-- `configure_gpios` only adds to the trace. -/
theorem configure_gpios_frame (s : Reles) :
    (configure_gpios s).gpio_queue = s.gpio_queue ∧
    (configure_gpios s).queues = s.queues ∧
    (configure_gpios s).tasks = s.tasks ∧
    (configure_gpios s).gpio_queue_thread_handle = s.gpio_queue_thread_handle ∧
    (configure_gpios s).gpio_watering_handle = s.gpio_watering_handle ∧
    (configure_gpios s).log = s.log ∧
    (configure_gpios s).ops = s.ops ++
      [.config_output 16, .set_level 16 1, .config_output 17, .set_level 17 1,
       .config_output 5, .set_level 5 1, .config_output 15, .set_level 15 1,
       .config_output 2, .set_level 2 1, .config_output 4, .set_level 4 1] := by
  have e : ∀ t : Reles, configure_gpios t = { t with ops := t.ops ++
      [.config_output 16, .set_level 16 1, .config_output 17, .set_level 17 1,
       .config_output 5, .set_level 5 1, .config_output 15, .set_level 15 1,
       .config_output 2, .set_level 2 1, .config_output 4, .set_level 4 1] } := by
    intro t
    simp [configure_gpios, NUM_GPIO_PINS, List.range, List.range.loop, gpio_settings_at,
      gpio_settings, GPIO_OUTPUT_PIN_1, GPIO_OUTPUT_PIN_2, GPIO_OUTPUT_PIN_3,
      GPIO_OUTPUT_PIN_4, GPIO_OUTPUT_PIN_5, GPIO_OUTPUT_PIN_6]
  rw [e s]
  exact ⟨rfl, rfl, rfl, rfl, rfl, rfl, rfl⟩

/-- The pass of the daily producer, call by call. -/
theorem rele_set_watering_pass_eq (s : Reles) :
    rele_set_watering_pass s =
      (reles_add_watering 0 s).bind fun s1 =>
      (reles_add_watering 1 s1).bind fun s2 =>
      (reles_add_watering 2 s2).bind fun s3 =>
      (reles_add_watering 3 s3).bind fun s4 =>
      (reles_add_watering 4 s4).bind fun s5 =>
      (reles_add_watering 5 s5).bind fun s6 =>
      some { s6 with ops := s6.ops ++ [.delay 86400000] } := by
  simp only [rele_set_watering_pass, rele_set_watering_burst, NUM_GPIO_PINS, List.range,
    List.range.loop, List.foldlM_cons, List.foldlM_nil, Int.ofNat_eq_coe, Nat.cast_ofNat,
    Nat.cast_zero, Nat.cast_one, SECONDS_IN_ONE_DAY, Nat.reduceMul, Option.bind_eq_bind]
  rcases reles_add_watering 0 s with _ | s1
  · rfl
  simp only [Option.some_bind]
  rcases reles_add_watering 1 s1 with _ | s2
  · rfl
  simp only [Option.some_bind]
  rcases reles_add_watering 2 s2 with _ | s3
  · rfl
  simp only [Option.some_bind]
  rcases reles_add_watering 3 s3 with _ | s4
  · rfl
  simp only [Option.some_bind]
  rcases reles_add_watering 4 s4 with _ | s5
  · rfl
  simp only [Option.some_bind]
  rcases reles_add_watering 5 s5 with _ | s6
  · rfl
  rfl

/-- A request sent to a live queue with room is appended at its tail. -/
theorem reles_add_watering_some (slot : Int) (s : Reles) (h : Nat) (q : Queue)
    (hq : s.gpio_queue = some h) (hl : s.queue_at (some h) = some q)
    (hroom : q.items.length < q.uxLength) :
    reles_add_watering slot s = some { s with
      queues := s.queues.set h (some { q with items := q.items ++ [slot] }),
      log := s.log ++ [.added slot, .count (q.items.length + 1)] } := by
  have hx : xQueueSend q slot = (true, { q with items := q.items ++ [slot] }) := by
    unfold xQueueSend
    rw [if_pos hroom]
  simp [reles_add_watering, hq, hl, hx, uxQueueMessagesWaiting]

/-- Writing back the queue that a handle refers to changes nothing. -/
theorem queues_set_self (s : Reles) (h : Nat) (q : Queue)
    (hl : s.queue_at (some h) = some q) : s.queues.set h (some q) = s.queues := by
  have hh := queue_at_lt s h q hl
  simp only [Reles.queue_at, List.get?_eq_getElem?, List.getElem?_eq_getElem hh,
    Option.join] at hl
  apply List.ext_getElem (by simp)
  intro n h1 h2
  by_cases hn : h = n
  · subst hn
    simp only [List.getElem_set_self]
    simpa using hl.symm
  · simp [List.getElem_set_ne hn]

/-- A burst of requests that fits into the queue is appended in order. -/
theorem burst_accepted :
    ∀ (ns : List Nat) (s : Reles) (h : Nat) (q : Queue),
      s.gpio_queue = some h → s.queue_at (some h) = some q →
      q.items.length + ns.length ≤ q.uxLength →
      ns.foldlM (fun (s : Reles) (i : Nat) => reles_add_watering (Int.ofNat i) s) s
        = some { s with
            queues := s.queues.set h (some { q with items := q.items ++ ns.map Int.ofNat }),
            log := s.log ++ burst_log q.items.length (ns.map Int.ofNat) } := by
  intro ns
  induction ns with
  | nil =>
    intro s h q hq hl _
    simp [burst_log, queues_set_self s h q hl]
  | cons n ns ih =>
    intro s h q hq hl hroom
    have hh := queue_at_lt s h q hl
    simp only [List.length_cons] at hroom
    rw [List.foldlM_cons, reles_add_watering_some (Int.ofNat n) s h q hq hl (by omega)]
    simp only [Option.bind_eq_bind, Option.some_bind]
    have key := ih
      { s with
        queues := s.queues.set h (some { q with items := q.items ++ [Int.ofNat n] }),
        log := s.log ++ [.added (Int.ofNat n), .count (q.items.length + 1)] }
      h { q with items := q.items ++ [Int.ofNat n] } hq
      (by simp [Reles.queue_at, List.getElem?_set_self hh])
      (by simp only [List.length_append, List.length_singleton]; omega)
    rw [key]
    simp [burst_log, List.set_set]

theorem level_after_append (a b : List HwOp) (gpio : Int) :
    level_after (a ++ b) gpio =
      b.foldl
        (fun lv op =>
          match op with
          | .set_level g l => if g = gpio then some l else lv
          | _ => lv)
        (level_after a gpio) := by
  unfold level_after
  rw [List.foldl_append]

/-- No valve is open when every valve line is closed. -/
theorem open_valves_of_all_closed (ops : List HwOp) (hc : all_closed ops) :
    open_valves ops = [] := by
  unfold open_valves
  rw [List.filter_eq_nil_iff]
  intro g hg
  rw [hc g hg]
  decide

/-- At most one entry of `gpio_settings` is on a given line of the table. -/
theorem gpio_settings_line_unique :
    ∀ g, g ∈ gpio_settings →
      (gpio_settings.filter (fun g1 => decide (g.gpio_number = g1.gpio_number))).length ≤ 1 := by
  decide

/-- After the write of 0 to the line of `g`, alone or followed by the delay, only the
channels on that line are open. -/
theorem open_valves_opened (ops : List HwOp) (g : GpioSettings) (hc : all_closed ops) :
    open_valves (ops ++ [.set_level g.gpio_number 0])
      = gpio_settings.filter (fun g1 => decide (g.gpio_number = g1.gpio_number)) ∧
    open_valves (ops ++ [.set_level g.gpio_number 0, .delay g.wait_ms])
      = gpio_settings.filter (fun g1 => decide (g.gpio_number = g1.gpio_number)) := by
  constructor
  · unfold open_valves
    apply List.filter_congr
    intro g1 hg1
    rw [level_after_append]
    simp only [List.foldl_cons, List.foldl_nil, hc g1 hg1]
    by_cases hp : g.gpio_number = g1.gpio_number
    · simp [hp]
    · simp [hp]
  · unfold open_valves
    apply List.filter_congr
    intro g1 hg1
    rw [level_after_append]
    simp only [List.foldl_cons, List.foldl_nil, hc g1 hg1]
    by_cases hp : g.gpio_number = g1.gpio_number
    · simp [hp]
    · simp [hp]

/-- A whole pulse leaves every valve line closed. -/
theorem all_closed_pulse (ops : List HwOp) (g : GpioSettings) (hc : all_closed ops) :
    all_closed (ops ++ valve_pulse g) := by
  intro g1 hg1
  rw [level_after_append]
  simp only [valve_pulse, List.foldl_cons, List.foldl_nil, hc g1 hg1]
  by_cases hp : g.gpio_number = g1.gpio_number
  · simp [hp]
  · simp [hp]

/-- On a trace of whole pulses after a closed start, at most one valve is open at
any point. -/
theorem pulses_one_open :
    ∀ (served : List GpioSettings) (base : List HwOp),
      all_closed base → (∀ g, g ∈ served → g ∈ gpio_settings) →
      ∀ t, t <+: (served.map valve_pulse).flatten → (open_valves (base ++ t)).length ≤ 1 := by
  intro served
  induction served with
  | nil =>
    intro base hc _ t ht
    simp only [List.map_nil, List.flatten_nil, List.prefix_nil] at ht
    subst ht
    rw [List.append_nil, open_valves_of_all_closed base hc]
    simp
  | cons g rest ih =>
    intro base hc hmem t ht
    have hg : g ∈ gpio_settings := hmem g (List.mem_cons_self g rest)
    have hrest : ∀ g1, g1 ∈ rest → g1 ∈ gpio_settings :=
      fun g1 h1 => hmem g1 (List.mem_cons_of_mem g h1)
    simp only [List.map_cons, List.flatten_cons, valve_pulse, List.cons_append,
      List.nil_append] at ht
    rcases t with _ | ⟨a, t⟩
    · rw [List.append_nil, open_valves_of_all_closed base hc]
      simp
    rw [List.cons_prefix_cons] at ht
    obtain ⟨rfl, ht⟩ := ht
    rcases t with _ | ⟨b, t⟩
    · rw [(open_valves_opened base g hc).1]
      exact gpio_settings_line_unique g hg
    rw [List.cons_prefix_cons] at ht
    obtain ⟨rfl, ht⟩ := ht
    rcases t with _ | ⟨c, t⟩
    · rw [(open_valves_opened base g hc).2]
      exact gpio_settings_line_unique g hg
    rw [List.cons_prefix_cons] at ht
    obtain ⟨rfl, ht⟩ := ht
    have := ih (base ++ valve_pulse g) (all_closed_pulse base g hc) hrest t ht
    simpa [valve_pulse, List.append_assoc] using this

/-- A call of `reles_add_watering` on a live queue returns, keeps the queue live and
leaves the trace alone; the queue keeps its requests and may get the new one. -/
theorem reles_add_watering_live (slot : Int) (s : Reles) (h : Nat) (q : Queue)
    (hq : s.gpio_queue = some h) (hl : s.queue_at (some h) = some q) :
    ∃ s1 q1, reles_add_watering slot s = some s1 ∧ s1.gpio_queue = some h ∧
      s1.queue_at (some h) = some q1 ∧ s1.ops = s.ops ∧
      (q1.items = q.items ++ [slot] ∨ q1.items = q.items) := by
  have hh := queue_at_lt s h q hl
  by_cases hroom : q.items.length < q.uxLength
  · refine ⟨_, { q with items := q.items ++ [slot] },
      reles_add_watering_some slot s h q hq hl hroom, hq, ?_, rfl, Or.inl rfl⟩
    simp [Reles.queue_at, List.getElem?_set_self hh]
  · have hx : xQueueSend q slot = (false, q) := by
      unfold xQueueSend
      rw [if_neg hroom]
    refine ⟨{ s with log := s.log ++ [.queue_full] }, q, ?_, hq, hl, rfl, Or.inr rfl⟩
    simp [reles_add_watering, hq, hl, hx]

/-- An entry found in the table is an entry of the table. -/
theorem gpio_settings_at_mem (i : Int) (g : GpioSettings) (h : gpio_settings_at i = some g) :
    g ∈ gpio_settings := by
  unfold gpio_settings_at at h
  split_ifs at h
  exact List.get?_mem h

/-- A pass of the consumer on a live queue whose requests are within the table: it
waits on an empty queue, and otherwise pulses the channel of the oldest
request. -/
theorem rele_queue_thread_pass_live (s : Reles) (h : Nat) (q : Queue)
    (hq : s.gpio_queue = some h) (hl : s.queue_at (some h) = some q)
    (hitems : ∀ x, x ∈ q.items → 0 ≤ x ∧ x < NUM_GPIO_PINS) :
    (q.items = [] ∧ rele_queue_thread_pass s = .blocked) ∨
    ∃ x rest g, q.items = x :: rest ∧ g ∈ gpio_settings ∧
      rele_queue_thread_pass s = .done { s with
        queues := s.queues.set h (some { q with items := rest }),
        ops := s.ops ++ valve_pulse g } := by
  cases hi : q.items with
  | nil =>
    left
    exact ⟨rfl, by simp [rele_queue_thread_pass, hq, hl, hi]⟩
  | cons x rest =>
    right
    have hx := hitems x (by rw [hi]; exact List.mem_cons_self x rest)
    have hsome := (gpio_settings_at_isSome x).mpr hx
    obtain ⟨g, hg⟩ := Option.isSome_iff_exists.mp hsome
    refine ⟨x, rest, g, rfl, gpio_settings_at_mem x g hg, ?_⟩
    simp [rele_queue_thread_pass, hq, hl, hi, hg, valve_pulse]

/-- A run of requests within the table and consumer passes on a live queue returns,
and what it adds to the trace is a sequence of whole pulses on channels of the
table. -/
theorem run_pulses :
    ∀ (acts : List Act) (s : Reles) (h : Nat) (q : Queue),
      s.gpio_queue = some h → s.queue_at (some h) = some q →
      (∀ x, x ∈ q.items → 0 ≤ x ∧ x < NUM_GPIO_PINS) →
      (∀ slot, Act.add slot ∈ acts → 0 ≤ slot ∧ slot < NUM_GPIO_PINS) →
      ∃ (s1 : Reles) (served : List GpioSettings), Reles.run acts s = some s1 ∧
        (∀ g, g ∈ served → g ∈ gpio_settings) ∧
        s1.ops = s.ops ++ (served.map valve_pulse).flatten := by
  intro acts
  induction acts with
  | nil =>
    intro s h q _ _ _ _
    exact ⟨s, [], rfl, by simp, by simp⟩
  | cons a acts ih =>
    intro s h q hq hl hitems hacts
    have hacts1 : ∀ slot, Act.add slot ∈ acts → 0 ≤ slot ∧ slot < NUM_GPIO_PINS :=
      fun slot hs => hacts slot (List.mem_cons_of_mem a hs)
    have hh := queue_at_lt s h q hl
    cases a with
    | add slot =>
      obtain ⟨s1, q1, hadd, hq1, hl1, hops1, hq1i⟩ := reles_add_watering_live slot s h q hq hl
      have hslot := hacts slot (List.mem_cons_self _ acts)
      have hitems1 : ∀ x, x ∈ q1.items → 0 ≤ x ∧ x < NUM_GPIO_PINS := by
        intro x hx
        rcases hq1i with e | e
        · rw [e, List.mem_append, List.mem_singleton] at hx
          rcases hx with hx | hx
          · exact hitems x hx
          · rw [hx]; exact hslot
        · rw [e] at hx; exact hitems x hx
      obtain ⟨s2, served, hrun, hmem, hops⟩ := ih s1 h q1 hq1 hl1 hitems1 hacts1
      refine ⟨s2, served, ?_, hmem, by rw [hops, hops1]⟩
      simp only [Reles.run, List.foldlM_cons, Reles.act, hadd, Option.bind_eq_bind,
        Option.some_bind]
      exact hrun
    | consume =>
      rcases rele_queue_thread_pass_live s h q hq hl hitems with ⟨_, hb⟩ | ⟨x, rest, g, hi, hg, hd⟩
      · obtain ⟨s2, served, hrun, hmem, hops⟩ := ih s h q hq hl hitems hacts1
        refine ⟨s2, served, ?_, hmem, hops⟩
        simp only [Reles.run, List.foldlM_cons, Reles.act, hb, Option.bind_eq_bind,
          Option.some_bind]
        exact hrun
      · have hitems1 : ∀ y, y ∈ rest → 0 ≤ y ∧ y < NUM_GPIO_PINS :=
          fun y hy => hitems y (by rw [hi]; exact List.mem_cons_of_mem x hy)
        obtain ⟨s2, served, hrun, hmem, hops⟩ := ih
          { s with queues := s.queues.set h (some { q with items := rest }),
                   ops := s.ops ++ valve_pulse g }
          h { q with items := rest } hq
          (by simp [Reles.queue_at, List.getElem?_set_self hh]) hitems1 hacts1
        refine ⟨s2, g :: served, ?_, ?_, ?_⟩
        · simp only [Reles.run, List.foldlM_cons, Reles.act, hd, Option.bind_eq_bind,
            Option.some_bind]
          exact hrun
        · intro g1 hg1
          rcases List.mem_cons.mp hg1 with e | e
          · rw [e]; exact hg
          · exact hmem g1 e
        · rw [hops]
          simp [List.append_assoc]

/-- After `configure_gpios` every valve line is closed. -/
theorem all_closed_configure_gpios (s : Reles) : all_closed (configure_gpios s).ops := by
  intro g hg
  rw [(configure_gpios_frame s).2.2.2.2.2.2, level_after_append]
  simp only [gpio_settings, GPIO_OUTPUT_PIN_1, GPIO_OUTPUT_PIN_2, GPIO_OUTPUT_PIN_3,
    GPIO_OUTPUT_PIN_4, GPIO_OUTPUT_PIN_5, GPIO_OUTPUT_PIN_6, List.mem_cons, List.mem_singleton,
    List.not_mem_nil, or_false] at hg
  rcases hg with rfl | rfl | rfl | rfl | rfl | rfl <;> simp


/-- The wrapped counter never exceeds `INT_MAX`. -/
theorem wrap_int_le (x : Int) : wrap_int x ≤ INT_MAX := by
  unfold wrap_int INT_MAX
  omega

/-- With the bound `INT_MAX` the loop does not return on the line that stays low. -/
theorem get_signal_level_loop_stuck :
    ∀ (fuel : Nat) (uSec : Int) (reads : Nat), uSec ≤ INT_MAX →
      get_signal_level_loop stuck_low GPIO_DHT22 INT_MAX false fuel uSec reads = none := by
  intro fuel
  induction fuel with
  | zero => intro uSec reads _; rfl
  | succ f ih =>
    intro uSec reads h
    unfold get_signal_level_loop
    have hl : stuck_low GPIO_DHT22 reads = (if false = true then 1 else 0) := rfl
    rw [if_pos hl, if_neg (by omega)]
    exact ih _ _ (wrap_int_le _)

/-- The statements of the producer taken in two runs, one after the other. -/
theorem rele_set_watering_steps_add :
    ∀ (a b i : Nat) (s : Reles),
      rele_set_watering_steps (a + b) i s =
        (rele_set_watering_steps a i s).bind fun r =>
          (rele_set_watering_steps b r.2.1 r.2.2).map fun t => (r.1 ++ t.1, t.2.1, t.2.2) := by
  intro a
  induction a with
  | zero =>
    intro b i s
    simp only [Nat.zero_add, rele_set_watering_steps, Option.some_bind, List.nil_append]
    cases rele_set_watering_steps b i s <;> rfl
  | succ a ih =>
    intro b i s
    rw [show a + 1 + b = (a + b) + 1 by omega]
    simp only [rele_set_watering_steps]
    cases hstep : rele_set_watering_step i s with
    | none => rfl
    | some r =>
      simp only [Option.some_bind, ih]
      cases rele_set_watering_steps a r.2.1 r.2.2 with
      | none => rfl
      | some t =>
        simp only [Option.some_bind, Option.map_some']
        cases rele_set_watering_steps b t.2.1 t.2.2 <;> rfl

/-- One pass of the producer on a live queue, statement by statement: the six calls
in ascending order with no delay yet, then the delay; the pass returns and the
queue stays live. -/
theorem rele_set_watering_cycle (s : Reles) (h : Nat) (q : Queue)
    (hq : s.gpio_queue = some h) (hl : s.queue_at (some h) = some q) :
    (∃ s6 : Reles,
      rele_set_watering_steps 6 0 s
        = some ([.submit 0, .submit 1, .submit 2, .submit 3, .submit 4, .submit 5], 6, s6) ∧
      s6.ops = s.ops) ∧
    ∃ (s7 : Reles) (q7 : Queue),
      rele_set_watering_steps 7 0 s
        = some ([.submit 0, .submit 1, .submit 2, .submit 3, .submit 4, .submit 5,
            .delay 86400000], 0, s7) ∧
      rele_set_watering_pass s = some s7 ∧
      s7.gpio_queue = some h ∧ s7.queue_at (some h) = some q7 := by
  obtain ⟨s1, q1, ha0, hq1, hl1, ho1, _⟩ := reles_add_watering_live 0 s h q hq hl
  obtain ⟨s2, q2, ha1, hq2, hl2, ho2, _⟩ := reles_add_watering_live 1 s1 h q1 hq1 hl1
  obtain ⟨s3, q3, ha2, hq3, hl3, ho3, _⟩ := reles_add_watering_live 2 s2 h q2 hq2 hl2
  obtain ⟨s4, q4, ha3, hq4, hl4, ho4, _⟩ := reles_add_watering_live 3 s3 h q3 hq3 hl3
  obtain ⟨s5, q5, ha4, hq5, hl5, ho5, _⟩ := reles_add_watering_live 4 s4 h q4 hq4 hl4
  obtain ⟨s6, q6, ha5, hq6, hl6, ho6, _⟩ := reles_add_watering_live 5 s5 h q5 hq5 hl5
  refine ⟨⟨s6, ?_, by rw [ho6, ho5, ho4, ho3, ho2, ho1]⟩,
    { s6 with ops := s6.ops ++ [.delay 86400000] }, q6, ?_, ?_, hq6, hl6⟩
  · simp [rele_set_watering_steps, rele_set_watering_step, NUM_GPIO_PINS,
      ha0, ha1, ha2, ha3, ha4, ha5]
  · simp [rele_set_watering_steps, rele_set_watering_step, NUM_GPIO_PINS, SECONDS_IN_ONE_DAY,
      ha0, ha1, ha2, ha3, ha4, ha5]
  · rw [rele_set_watering_pass_eq]
    simp [ha0, ha1, ha2, ha3, ha4, ha5]

/-- The first `n` passes of the producer on a live queue, statement by statement:
`n` times the six calls in ascending order followed by the delay; the loop
returns after every pass. -/
theorem rele_set_watering_cycles :
    ∀ (n : Nat) (s : Reles) (h : Nat) (q : Queue),
      s.gpio_queue = some h → s.queue_at (some h) = some q →
      ∃ s1 : Reles,
        rele_set_watering_steps (7 * n) 0 s
          = some ((List.replicate n
              [ProducerEvent.submit 0, .submit 1, .submit 2, .submit 3, .submit 4, .submit 5,
                .delay 86400000]).flatten, 0, s1) ∧
        rele_set_watering n s = some s1 := by
  intro n
  induction n with
  | zero =>
    intro s h q _ _
    exact ⟨s, rfl, rfl⟩
  | succ n ih =>
    intro s h q hq hl
    obtain ⟨-, s7, q7, hsteps, hpass, hq7, hl7⟩ := rele_set_watering_cycle s h q hq hl
    obtain ⟨s1, hrest, hloop⟩ := ih s7 h q7 hq7 hl7
    refine ⟨s1, ?_, ?_⟩
    · rw [show 7 * (n + 1) = 7 + 7 * n by omega, rele_set_watering_steps_add, hsteps]
      simp only [Option.some_bind, hrest, Option.map_some', List.replicate_succ,
        List.flatten_cons]
    · simp only [rele_set_watering, hpass, Option.some_bind, hloop]

/-! ## The claims -/

/-- C1: for every five-byte frame `b0 .. b4` assembled by `read_dht` whose last byte
is the sum of the first four modulo 256, the cycle returns `DHT_OK` and stores
humidity `(256*b0 + b1)/10` and temperature `s*(256*(b2 AND 0x7F) + b3)/10`, the
sign `s` being `-1` when bit 7 of `b2` is set and `+1` otherwise. -/
theorem read_dht_valid_frame (env : Env) (s : Dht) (b0 b1 b2 b3 b4 r : Nat)
    (hrx : read_dht_receive env s = (some [b0, b1, b2, b3, b4], r))
    (hck : b4 = (b0 + b1 + b2 + b3) % 256) :
    (read_dht env s).1 = DHT_OK ∧
    (read_dht env s).2.humidity = (256 * (b0 : ℚ) + b1) / 10 ∧
    (read_dht env s).2.temperature =
      (if b2.testBit 7 = true then -1 else 1) * (256 * ((b2 &&& 0x7F : ℕ) : ℚ) + b3) / 10 := by
  rw [read_dht_of_frame env s _ r hrx, read_dht_decode_frame]
  simp [hck]

/-- Witness of C1: the frame `01 90 80 65 76` (humidity 40.0, temperature -10.1). -/
theorem read_dht_valid_frame_witness :
    read_dht_receive (dht_line 80 80 [0x01, 0x90, 0x80, 0x65, 0x76]) Dht.boot
      = (some [0x01, 0x90, 0x80, 0x65, 0x76], 3442) ∧
    (read_dht (dht_line 80 80 [0x01, 0x90, 0x80, 0x65, 0x76]) Dht.boot).1 = DHT_OK ∧
    (read_dht (dht_line 80 80 [0x01, 0x90, 0x80, 0x65, 0x76]) Dht.boot).2.humidity = 40 ∧
    (read_dht (dht_line 80 80 [0x01, 0x90, 0x80, 0x65, 0x76]) Dht.boot).2.temperature
      = -101 / 10 := by
  have h := read_dht_valid_frame (dht_line 80 80 [0x01, 0x90, 0x80, 0x65, 0x76]) Dht.boot
    0x01 0x90 0x80 0x65 0x76 3442 (by decide!) (by decide)
  refine ⟨by decide!, h.1, ?_, ?_⟩
  · rw [h.2.1]; norm_num
  · rw [h.2.2]
    have hb : Nat.testBit 0x80 7 = true := by decide
    have hm : (0x80 &&& 0x7F : ℕ) = 0 := by decide
    rw [hb, hm]; norm_num

/-- C2, as the code has it: for the frame bytes `02 1A 01 02 1F` the checksum test
passes and the decode of `read_dht` yields humidity 53.8 (`(2*256 + 26)/10`) and
temperature 25.8. -/
theorem read_dht_example_frame (env : Env) (s : Dht) (r : Nat)
    (hrx : read_dht_receive env s = (some [0x02, 0x1A, 0x01, 0x02, 0x1F], r)) :
    (0x1F : Nat) = (0x02 + 0x1A + 0x01 + 0x02) % 256 ∧
    read_dht env s = (DHT_OK, { s with
      humidity := 269 / 5, temperature := 129 / 5,
      reads := r, ops := s.ops ++ start_signal s.DHTgpio }) := by
  refine ⟨by decide, ?_⟩
  rw [read_dht_of_frame env s _ r hrx, read_dht_decode_frame]
  have hb : Nat.testBit 0x01 7 = false := by decide
  have hm : (0x01 &&& 0x7F : ℕ) = 1 := by decide
  rw [hb, hm]
  norm_num

/-- Witness of C2: the example frame sent to a reader on GPIO 22. -/
theorem read_dht_example_frame_witness :
    read_dht_receive (dht_line 78 79 [0x02, 0x1A, 0x01, 0x02, 0x1F])
        { Dht.boot with DHTgpio := GPIO_DHT22 }
      = (some [0x02, 0x1A, 0x01, 0x02, 0x1F], 3439) ∧
    (0x1F : Nat) = (0x02 + 0x1A + 0x01 + 0x02) % 256 ∧
    read_dht (dht_line 78 79 [0x02, 0x1A, 0x01, 0x02, 0x1F])
        { Dht.boot with DHTgpio := GPIO_DHT22 }
      = (DHT_OK, { Dht.boot with
          DHTgpio := GPIO_DHT22, humidity := 269 / 5, temperature := 129 / 5,
          reads := 3439, ops := start_signal GPIO_DHT22 }) :=
  ⟨by decide!,
    read_dht_example_frame (dht_line 78 79 [0x02, 0x1A, 0x01, 0x02, 0x1F])
      { Dht.boot with DHTgpio := GPIO_DHT22 } 3439 (by decide!)⟩

/-- Counterexample to C2 as stated: on a transmission of `02 1A 01 02 1F` the cycle
returns `DHT_OK` and the stored humidity is 53.8, not 53.0. -/
theorem read_dht_example_humidity_not_53 :
    read_dht (dht_line 80 80 [0x02, 0x1A, 0x01, 0x02, 0x1F]) Dht.started
      = (DHT_OK, { Dht.started with
          humidity := 269 / 5, temperature := 129 / 5,
          reads := 3442, ops := start_signal GPIO_DHT22 }) ∧
    (269 / 5 : ℚ) ≠ 53 :=
  ⟨by decide!, by norm_num⟩

/-- C3: in a read cycle whose two acknowledgement waits and eighty bit waits all
succeed, `read_dht` returns `DHT_OK` exactly when the last byte of the received
frame is the sum of the first four modulo 256, returns `DHT_CHECKSUM_ERROR`
otherwise, and never returns `DHT_TIMEOUT_ERROR`. -/
theorem read_dht_ok_iff_checksum (env : Env) (s : Dht) (ds : List Int) (r : Nat)
    (h0 : 0 ≤ (get_signal_level env s.DHTgpio 85 false s.reads).1)
    (h1 : 0 ≤ (get_signal_level env s.DHTgpio 85 true
      (get_signal_level env s.DHTgpio 85 false s.reads).2).1)
    (h2 : measured_pulses env s.DHTgpio 40
      (get_signal_level env s.DHTgpio 85 true
        (get_signal_level env s.DHTgpio 85 false s.reads).2).2 = some (ds, r)) :
    ∃ b0 b1 b2 b3 b4, read_dht_receive env s = (some [b0, b1, b2, b3, b4], r) ∧
      ((read_dht env s).1 = DHT_OK ↔ b4 = (b0 + b1 + b2 + b3) % 256) ∧
      (b4 ≠ (b0 + b1 + b2 + b3) % 256 → (read_dht env s).1 = DHT_CHECKSUM_ERROR) ∧
      (read_dht env s).1 ≠ DHT_TIMEOUT_ERROR := by
  have hrx := read_dht_receive_of_pulses env s ds r h0 h1 h2
  obtain ⟨data, hfold, hlen, -⟩ :=
    foldl_store_bit_frame ds (measured_pulses_length env s.DHTgpio 40 _ r ds h2)
  obtain ⟨b0, b1, b2, b3, b4, rfl⟩ := five_bytes data hlen
  rw [hfold] at hrx
  refine ⟨b0, b1, b2, b3, b4, hrx, ?_⟩
  rw [read_dht_of_frame env s _ r hrx, read_dht_decode_frame]
  by_cases hc : b4 = (b0 + b1 + b2 + b3) % 256
  · simp [hc, DHT_OK, DHT_TIMEOUT_ERROR]
  · simp [hc, DHT_OK, DHT_CHECKSUM_ERROR, DHT_TIMEOUT_ERROR]

/-- Witness of C3: a transmission of `00 01 00 02 04`, whose checksum is wrong. -/
theorem read_dht_ok_iff_checksum_witness :
    (0 ≤ (get_signal_level (dht_line 80 80 [0, 1, 0, 2, 4]) 4 85 false 0).1 ∧
     0 ≤ (get_signal_level (dht_line 80 80 [0, 1, 0, 2, 4]) 4 85 true
        (get_signal_level (dht_line 80 80 [0, 1, 0, 2, 4]) 4 85 false 0).2).1 ∧
     measured_pulses (dht_line 80 80 [0, 1, 0, 2, 4]) 4 40
        (get_signal_level (dht_line 80 80 [0, 1, 0, 2, 4]) 4 85 true
          (get_signal_level (dht_line 80 80 [0, 1, 0, 2, 4]) 4 85 false 0).2).2
        = some (frame_pulses [0, 1, 0, 2, 4], 3442)) ∧
    ∃ b0 b1 b2 b3 b4,
      read_dht_receive (dht_line 80 80 [0, 1, 0, 2, 4]) Dht.boot
        = (some [b0, b1, b2, b3, b4], 3442) ∧
      ((read_dht (dht_line 80 80 [0, 1, 0, 2, 4]) Dht.boot).1 = DHT_OK
        ↔ b4 = (b0 + b1 + b2 + b3) % 256) ∧
      (b4 ≠ (b0 + b1 + b2 + b3) % 256 →
        (read_dht (dht_line 80 80 [0, 1, 0, 2, 4]) Dht.boot).1 = DHT_CHECKSUM_ERROR) ∧
      (read_dht (dht_line 80 80 [0, 1, 0, 2, 4]) Dht.boot).1 ≠ DHT_TIMEOUT_ERROR := by
  have ha : 0 ≤ (get_signal_level (dht_line 80 80 [0, 1, 0, 2, 4]) 4 85 false 0).1 := by decide!
  have hb : 0 ≤ (get_signal_level (dht_line 80 80 [0, 1, 0, 2, 4]) 4 85 true
      (get_signal_level (dht_line 80 80 [0, 1, 0, 2, 4]) 4 85 false 0).2).1 := by decide!
  have hc : measured_pulses (dht_line 80 80 [0, 1, 0, 2, 4]) 4 40
      (get_signal_level (dht_line 80 80 [0, 1, 0, 2, 4]) 4 85 true
        (get_signal_level (dht_line 80 80 [0, 1, 0, 2, 4]) 4 85 false 0).2).2
      = some (frame_pulses [0, 1, 0, 2, 4], 3442) := by decide!
  exact ⟨⟨ha, hb, hc⟩,
    read_dht_ok_iff_checksum (dht_line 80 80 [0, 1, 0, 2, 4]) Dht.boot
      (frame_pulses [0, 1, 0, 2, 4]) 3442 ha hb hc⟩

/-- C4, as the code has it: for every received frame whose last byte differs from the
sum of the first four modulo 256, the cycle returns `DHT_CHECKSUM_ERROR`, and the
stored humidity and temperature after the cycle are the values decoded from that
frame: the assignments of lines 252-265 precede the checksum test. -/
theorem read_dht_checksum_error_stores_frame (env : Env) (s : Dht) (b0 b1 b2 b3 b4 r : Nat)
    (hrx : read_dht_receive env s = (some [b0, b1, b2, b3, b4], r))
    (hck : b4 ≠ (b0 + b1 + b2 + b3) % 256) :
    (read_dht env s).1 = DHT_CHECKSUM_ERROR ∧
    (read_dht env s).2.humidity = (256 * (b0 : ℚ) + b1) / 10 ∧
    (read_dht env s).2.temperature =
      (if b2.testBit 7 = true then -1 else 1) * (256 * ((b2 &&& 0x7F : ℕ) : ℚ) + b3) / 10 := by
  rw [read_dht_of_frame env s _ r hrx, read_dht_decode_frame]
  simp [hck]

/-- Witness of C4: a reader holding 40.0 and -10.1 receives `00 0A 00 14 FF`. -/
theorem read_dht_checksum_error_stores_frame_witness :
    read_dht_receive (dht_line 80 80 [0x00, 0x0A, 0x00, 0x14, 0xFF])
        { Dht.boot with humidity := 40, temperature := -101 / 10 }
      = (some [0x00, 0x0A, 0x00, 0x14, 0xFF], 3442) ∧
    (0xFF : Nat) ≠ (0x00 + 0x0A + 0x00 + 0x14) % 256 ∧
    (read_dht (dht_line 80 80 [0x00, 0x0A, 0x00, 0x14, 0xFF])
        { Dht.boot with humidity := 40, temperature := -101 / 10 }).1 = DHT_CHECKSUM_ERROR ∧
    (read_dht (dht_line 80 80 [0x00, 0x0A, 0x00, 0x14, 0xFF])
        { Dht.boot with humidity := 40, temperature := -101 / 10 }).2.humidity
      = (256 * ((0x00 : Nat) : ℚ) + (0x0A : Nat)) / 10 ∧
    (read_dht (dht_line 80 80 [0x00, 0x0A, 0x00, 0x14, 0xFF])
        { Dht.boot with humidity := 40, temperature := -101 / 10 }).2.temperature
      = (if Nat.testBit 0x00 7 = true then -1 else 1)
          * (256 * ((0x00 &&& 0x7F : ℕ) : ℚ) + (0x14 : Nat)) / 10 := by
  have hrx : read_dht_receive (dht_line 80 80 [0x00, 0x0A, 0x00, 0x14, 0xFF])
        { Dht.boot with humidity := 40, temperature := -101 / 10 }
      = (some [0x00, 0x0A, 0x00, 0x14, 0xFF], 3442) := by decide!
  exact ⟨hrx, by decide,
    read_dht_checksum_error_stores_frame _ _ 0x00 0x0A 0x00 0x14 0xFF 3442 hrx (by decide)⟩

/-- Counterexample to C4 as stated: a started reader holding humidity 0 and
temperature 0 receives `02 1A 01 02 00`, whose checksum is wrong; the cycle returns
`DHT_CHECKSUM_ERROR` and the stored reading is now 53.8 and 25.8. -/
theorem read_dht_checksum_error_overwrites :
    read_dht_receive (dht_line 80 80 [0x02, 0x1A, 0x01, 0x02, 0x00]) Dht.started
      = (some [0x02, 0x1A, 0x01, 0x02, 0x00], 3442) ∧
    (0x00 : Nat) ≠ (0x02 + 0x1A + 0x01 + 0x02) % 256 ∧
    read_dht (dht_line 80 80 [0x02, 0x1A, 0x01, 0x02, 0x00]) Dht.started
      = (DHT_CHECKSUM_ERROR, { Dht.started with
          humidity := 269 / 5, temperature := 129 / 5,
          reads := 3442, ops := start_signal GPIO_DHT22 }) ∧
    (269 / 5 : ℚ) ≠ Dht.started.humidity ∧ (129 / 5 : ℚ) ≠ Dht.started.temperature :=
  ⟨by decide!, by decide, by decide!, by decide!, by decide!⟩

/-- C5: a read cycle that returns `DHT_TIMEOUT_ERROR`, at whichever wait the timeout
occurs, leaves the stored humidity and temperature as they were; of the statics
and the hardware only the trace of the start signal and the tape position
change. -/
theorem read_dht_timeout_keeps_reading (env : Env) (s : Dht)
    (h : (read_dht env s).1 = DHT_TIMEOUT_ERROR) :
    (read_dht env s).2.humidity = s.humidity ∧
    (read_dht env s).2.temperature = s.temperature ∧
    (read_dht env s).2 = { s with
      reads := (read_dht_receive env s).2, ops := s.ops ++ start_signal s.DHTgpio } := by
  cases hrx : read_dht_receive env s with
  | mk frame r =>
    cases frame with
    | none =>
      rw [read_dht_of_timeout env s r hrx]
      exact ⟨rfl, rfl, rfl⟩
    | some frame =>
      rw [read_dht_of_frame env s frame r hrx] at h
      rcases read_dht_decode_status frame
        { s with ops := s.ops ++ start_signal s.DHTgpio, reads := r } with h1 | h1
      · rw [h1] at h; exact absurd h (by decide)
      · rw [h1] at h; exact absurd h (by decide)

/-- Witness of C5: the line sticks high during the tenth bit of `FF FF 00 00 FE`; the
reader keeps 40.0 and -10.1. -/
theorem read_dht_timeout_keeps_reading_witness :
    (read_dht (stuck_line 900 (dht_line 80 80 [0xFF, 0xFF, 0x00, 0x00, 0xFE]))
        { Dht.boot with humidity := 40, temperature := -101 / 10 }).1 = DHT_TIMEOUT_ERROR ∧
    (read_dht (stuck_line 900 (dht_line 80 80 [0xFF, 0xFF, 0x00, 0x00, 0xFE]))
        { Dht.boot with humidity := 40, temperature := -101 / 10 }).2.humidity = 40 ∧
    (read_dht (stuck_line 900 (dht_line 80 80 [0xFF, 0xFF, 0x00, 0x00, 0xFE]))
        { Dht.boot with humidity := 40, temperature := -101 / 10 }).2.temperature
      = -101 / 10 := by
  have ht : (read_dht (stuck_line 900 (dht_line 80 80 [0xFF, 0xFF, 0x00, 0x00, 0xFE]))
        { Dht.boot with humidity := 40, temperature := -101 / 10 }).1 = DHT_TIMEOUT_ERROR := by
    decide!
  have h := read_dht_timeout_keeps_reading _ _ ht
  exact ⟨ht, h.1, h.2.1⟩

/-- C6 fails on the code: `get_signal_level(85, 0)` on a line that is low for 86
samples and then high measures 86, which exceeds the bound 85, and still
succeeds; `read_dht` goes on and returns `DHT_OK`.  One more low sample is needed
for the result `-1`. -/
theorem get_signal_level_exceeds_bound :
    get_signal_level (dht_line 86 80 [0x02, 0x1A, 0x01, 0x02, 0x1F]) GPIO_DHT22 85 false 0
      = (86, 87) ∧
    (read_dht (dht_line 86 80 [0x02, 0x1A, 0x01, 0x02, 0x1F]) Dht.started).1 = DHT_OK ∧
    get_signal_level (dht_line 87 80 [0x02, 0x1A, 0x01, 0x02, 0x1F]) GPIO_DHT22 85 false 0
      = (-1, 87) ∧
    (read_dht (dht_line 87 80 [0x02, 0x1A, 0x01, 0x02, 0x1F]) Dht.started).1
      = DHT_TIMEOUT_ERROR :=
  ⟨by decide!, by decide!, by decide!, by decide!⟩

/-- C7: for every sequence `ds` of forty successfully measured high-pulse durations,
the bit loop of `read_dht` ends with `byteInx = 5`, `bitInx = 7` and a frame whose
byte `i` (of five) is the sum over `j < 8` of `bit (8*i + j) * 2^(7 - j)`, where
`bit k` is 1 when `ds[k] > 40` and 0 otherwise. -/
theorem read_dht_bits_msb_first (env : Env) (gpio : Int) (reads r : Nat) (ds : List Int)
    (h : measured_pulses env gpio 40 reads = some (ds, r)) :
    ∃ data, read_dht_bits env gpio 40 ⟨List.replicate MAXdhtData 0, 0, 7⟩ reads
        = (some ⟨data, 5, 7⟩, r) ∧
      data.length = 5 ∧
      ∀ i, i < 5 → data.getD i 0 =
        ∑ j in Finset.range 8, (if ds.getD (8 * i + j) 0 > 40 then 1 else 0) * 2 ^ (7 - j) := by
  obtain ⟨data, hfold, hlen, hbytes⟩ :=
    foldl_store_bit_frame ds (measured_pulses_length env gpio 40 reads r ds h)
  refine ⟨data, ?_, hlen, hbytes⟩
  rw [read_dht_bits_eq_foldl env gpio 40 _ reads r ds h, hfold]

/-- Witness of C7: the forty pulses of a transmission of `A5 3C 00 FF 81`. -/
theorem read_dht_bits_msb_first_witness :
    measured_pulses (dht_line 80 80 [0xA5, 0x3C, 0x00, 0xFF, 0x81]) 4 40 162
      = some (frame_pulses [0xA5, 0x3C, 0x00, 0xFF, 0x81], 3442) ∧
    ∃ data, read_dht_bits (dht_line 80 80 [0xA5, 0x3C, 0x00, 0xFF, 0x81]) 4 40
        ⟨List.replicate MAXdhtData 0, 0, 7⟩ 162 = (some ⟨data, 5, 7⟩, 3442) ∧
      data.length = 5 ∧
      ∀ i, i < 5 → data.getD i 0 =
        ∑ j in Finset.range 8,
          (if (frame_pulses [0xA5, 0x3C, 0x00, 0xFF, 0x81]).getD (8 * i + j) 0 > 40
            then 1 else 0) * 2 ^ (7 - j) := by
  have hm : measured_pulses (dht_line 80 80 [0xA5, 0x3C, 0x00, 0xFF, 0x81]) 4 40 162
      = some (frame_pulses [0xA5, 0x3C, 0x00, 0xFF, 0x81], 3442) := by decide!
  exact ⟨hm, read_dht_bits_msb_first _ 4 162 3442 _ hm⟩

/-- C8, as the code has it: the bit loop classifies with the single threshold 40 and
a strict comparison.  For every measured width `w`, the bit written at the
current position of the cleared frame is 1 exactly when `w > 40`: widths up to
and including 40 give 0, widths above 40 give 1; so the bit is monotonic in
`w`. -/
theorem store_bit_threshold (bl : BitLoop) (w : Int)
    (hi : bl.byteInx < bl.dhtData.length) (hb : bl.bitInx < 8)
    (hclr : (bl.dhtData.getD bl.byteInx 0).testBit bl.bitInx = false) :
    ((store_bit bl w).dhtData.getD bl.byteInx 0).testBit bl.bitInx = decide (w > 40) ∧
    (w ≤ 40 → ((store_bit bl w).dhtData.getD bl.byteInx 0).testBit bl.bitInx = false) ∧
    (40 < w → ((store_bit bl w).dhtData.getD bl.byteInx 0).testBit bl.bitInx = true) ∧
    ∀ w1 : Int, w ≤ w1 →
      ((store_bit bl w).dhtData.getD bl.byteInx 0).testBit bl.bitInx = true →
      ((store_bit bl w1).dhtData.getD bl.byteInx 0).testBit bl.bitInx = true := by
  have key : ∀ v : Int,
      ((store_bit bl v).dhtData.getD bl.byteInx 0).testBit bl.bitInx = decide (v > 40) := by
    intro v
    obtain ⟨data, i, b⟩ := bl
    simp only at hi hb hclr ⊢
    by_cases hv : v > 40
    · have hd : (store_bit ⟨data, i, b⟩ v).dhtData
          = data.set i ((data.getD i 0 ||| (1 <<< b)) % 256) := by
        unfold store_bit
        simp only [hv, if_true]
        split_ifs <;> rfl
      rw [hd, list_getD_set_self data i _ hi]
      have h256 : (256 : Nat) = 2 ^ 8 := by norm_num
      rw [h256, Nat.testBit_mod_two_pow, Nat.testBit_or, Nat.one_shiftLeft,
        Nat.testBit_two_pow_self]
      simp [hb, hv]
    · have hd : (store_bit ⟨data, i, b⟩ v).dhtData = data := by
        unfold store_bit
        simp only [hv, if_false]
        split_ifs <;> rfl
      rw [hd, hclr]
      simp [hv]
  refine ⟨key w, ?_, ?_, ?_⟩
  · intro h; rw [key w]; simp; omega
  · intro h; rw [key w]; simpa using h
  · intro w1 h1 h2
    rw [key w] at h2
    rw [key w1]
    simp at h2 ⊢
    omega

/-- Witness of C8: the first iteration of the loop, with the width 41. -/
theorem store_bit_threshold_witness :
    ((0 : Nat) < (List.replicate MAXdhtData 0).length ∧ (7 : Nat) < 8 ∧
      (([0, 0, 0, 0, 0] : List Nat).getD 0 0).testBit 7 = false) ∧
    ((store_bit ⟨List.replicate MAXdhtData 0, 0, 7⟩ 41).dhtData.getD 0 0).testBit 7
      = decide ((41 : Int) > 40) ∧
    (store_bit ⟨List.replicate MAXdhtData 0, 0, 7⟩ 41).dhtData = [128, 0, 0, 0, 0] :=
  ⟨⟨by decide, by decide, by decide⟩,
    (store_bit_threshold ⟨List.replicate MAXdhtData 0, 0, 7⟩ 41
      (by decide) (by decide) (by decide)).1, by decide⟩

/-- Counterexample to C8 as stated: the width 40 is at the threshold and gives bit 0;
the array stays cleared. -/
theorem store_bit_at_threshold_is_zero :
    (40 : Int) ≥ 40 ∧
    ((store_bit ⟨List.replicate MAXdhtData 0, 0, 7⟩ 40).dhtData.getD 0 0).testBit 7 = false ∧
    store_bit ⟨List.replicate MAXdhtData 0, 0, 7⟩ 40 = ⟨[0, 0, 0, 0, 0], 0, 6⟩ :=
  ⟨by decide, by decide, by decide⟩

/-- C9: with `gpio_queue` a live queue of capacity `QUEUE_LENGTH = 10`: when it holds
10 requests, `reles_add_watering(slot)` returns at once through the failure
branch (the "queue is full" log line) and leaves the queue and every other
object as they were; when it holds fewer than 10, it appends `slot` at the tail
and changes nothing else but the log. -/
theorem reles_add_watering_queue (slot : Int) (s : Reles) (h : Nat) (q : Queue)
    (hq : s.gpio_queue = some h) (hl : s.queue_at (some h) = some q)
    (hcap : q.uxLength = QUEUE_LENGTH) :
    (q.items.length = QUEUE_LENGTH →
      reles_add_watering slot s = some { s with log := s.log ++ [.queue_full] }) ∧
    (q.items.length < QUEUE_LENGTH →
      reles_add_watering slot s = some { s with
        queues := s.queues.set h (some { q with items := q.items ++ [slot] }),
        log := s.log ++ [.added slot, .count (q.items.length + 1)] }) := by
  constructor
  · intro hfull
    have hx : xQueueSend q slot = (false, q) := by
      unfold xQueueSend
      rw [if_neg (by omega)]
    simp [reles_add_watering, hq, hl, hx]
  · intro hroom
    have hx : xQueueSend q slot = (true, { q with items := q.items ++ [slot] }) := by
      unfold xQueueSend
      rw [if_pos (by omega)]
    simp [reles_add_watering, hq, hl, hx, uxQueueMessagesWaiting]

/-- Witness of C9: a full queue rejects slot 3, a queue of four requests takes
slot 4. -/
theorem reles_add_watering_queue_witness :
    ((reles_with [0, 1, 2, 3, 4, 5, 0, 1, 2, 3]).gpio_queue = some 0 ∧
      (reles_with [0, 1, 2, 3, 4, 5, 0, 1, 2, 3]).queue_at (some 0)
        = some ⟨10, [0, 1, 2, 3, 4, 5, 0, 1, 2, 3]⟩ ∧
      (10 : Nat) = QUEUE_LENGTH ∧
      ([0, 1, 2, 3, 4, 5, 0, 1, 2, 3] : List Int).length = QUEUE_LENGTH) ∧
    reles_add_watering 3 (reles_with [0, 1, 2, 3, 4, 5, 0, 1, 2, 3])
      = some { reles_with [0, 1, 2, 3, 4, 5, 0, 1, 2, 3] with log := [.queue_full] } ∧
    reles_add_watering 4 (reles_with [0, 1, 2, 3])
      = some { reles_with [0, 1, 2, 3, 4] with log := [.added 4, .count 5] } :=
  ⟨⟨by decide, by decide, by decide, by decide⟩,
    (reles_add_watering_queue 3 (reles_with [0, 1, 2, 3, 4, 5, 0, 1, 2, 3]) 0
      ⟨10, [0, 1, 2, 3, 4, 5, 0, 1, 2, 3]⟩ (by decide) (by decide) (by decide)).1 (by decide),
    (reles_add_watering_queue 4 (reles_with [0, 1, 2, 3]) 0
      ⟨10, [0, 1, 2, 3]⟩ (by decide) (by decide) (by decide)).2 (by decide)⟩

/-- C10, as the code has it: `reles_add_watering` makes no range check.  For every
`slot`, inside or outside `0 .. NUM_GPIO_PINS - 1`, a queue holding fewer requests
than its capacity takes the request at its tail.  The index that the consumer
`rele_queue_thread` takes from the head of the queue has an entry in
`gpio_settings` exactly when it is within `0 .. 5`: the pass of the consumer is
undefined exactly when the index is outside that range. -/
theorem reles_add_watering_unchecked (slot : Int) (s : Reles) (h : Nat) (q : Queue)
    (hq : s.gpio_queue = some h) (hl : s.queue_at (some h) = some q)
    (hroom : q.items.length < q.uxLength) :
    (∃ s1, reles_add_watering slot s = some s1 ∧ s1.waiting = q.items ++ [slot]) ∧
    (∀ (t : Reles) (k : Nat) (p : Queue) (idx : Int) (rest : List Int),
      t.gpio_queue = some k → t.queue_at (some k) = some p → p.items = idx :: rest →
      (rele_queue_thread_pass t = .undefined ↔ ¬ (0 ≤ idx ∧ idx < NUM_GPIO_PINS))) := by
  have hx : xQueueSend q slot = (true, { q with items := q.items ++ [slot] }) := by
    unfold xQueueSend
    rw [if_pos hroom]
  have hh : h < s.queues.length := queue_at_lt s h q hl
  have hadd : reles_add_watering slot s = some { s with
      queues := s.queues.set h (some { q with items := q.items ++ [slot] }),
      log := s.log ++ [.added slot, .count (q.items.length + 1)] } := by
    simp [reles_add_watering, hq, hl, hx, uxQueueMessagesWaiting]
  refine ⟨⟨_, hadd, ?_⟩, ?_⟩
  · simp [Reles.waiting, Reles.queue_at, hq, List.getElem?_set_self hh]
  · intro t k p idx rest hk hp hitems
    rw [← gpio_settings_at_isSome]
    cases hg : gpio_settings_at idx with
    | none => simp [rele_queue_thread_pass, hk, hp, hitems, hg]
    | some g => simp [rele_queue_thread_pass, hk, hp, hitems, hg]

/-- Witness of C10: slot -1 is taken by a queue that holds one request. -/
theorem reles_add_watering_unchecked_witness :
    ((reles_with [2]).gpio_queue = some 0 ∧
      (reles_with [2]).queue_at (some 0) = some ⟨10, [2]⟩ ∧
      ([2] : List Int).length < 10) ∧
    ∃ s1, reles_add_watering (-1) (reles_with [2]) = some s1 ∧ s1.waiting = [2] ++ [-1] :=
  ⟨⟨by decide, by decide, by decide⟩,
    (reles_add_watering_unchecked (-1) (reles_with [2]) 0 ⟨10, [2]⟩
      (by decide) (by decide) (by decide)).1⟩

/-- Counterexample to C10 as stated: slot 7 is outside `0 .. 5`; `reles_add_watering(7)`
on the empty queue takes the success branch and puts 7 in the queue; the
consumer then takes 7 as index into `gpio_settings`, which has no such entry. -/
theorem reles_add_watering_accepts_7 :
    ¬ ((0 : Int) ≤ 7 ∧ (7 : Int) < NUM_GPIO_PINS) ∧
    reles_add_watering 7 (reles_with [])
      = some { reles_with [] with
          queues := [some ⟨QUEUE_LENGTH, [7]⟩], log := [.added 7, .count 1] } ∧
    rele_queue_thread_pass { reles_with [] with
        queues := [some ⟨QUEUE_LENGTH, [7]⟩], log := [.added 7, .count 1] } = .undefined ∧
    gpio_settings_at 7 = none :=
  ⟨by decide, by decide, by decide, by decide⟩
/-- C11: on a live queue, whatever it holds, the daily producer `rele_set_watering`
runs pass after pass, and the statements of its first `n` passes are, in order,
`n` times the calls `reles_add_watering(0)`, ..., `reles_add_watering(5)`, each
index once and ascending, followed by the delay of one day.  The first six
statements of the task are the six calls, and no delay has been made when they
are done.  When the queue holds at most 4 requests at the start of a burst and
nothing is taken from it meanwhile, all six are accepted and the queue becomes
its old contents followed by `[0, 1, 2, 3, 4, 5]`. -/
theorem rele_set_watering_burst_order (s : Reles) (h : Nat) (q : Queue) (n : Nat)
    (hq : s.gpio_queue = some h) (hl : s.queue_at (some h) = some q) :
    (∃ s6 : Reles,
      rele_set_watering_steps 6 0 s
        = some ([.submit 0, .submit 1, .submit 2, .submit 3, .submit 4, .submit 5], 6, s6) ∧
      s6.ops = s.ops) ∧
    (∃ s7 : Reles,
      rele_set_watering_steps 7 0 s
        = some ([.submit 0, .submit 1, .submit 2, .submit 3, .submit 4, .submit 5,
            .delay 86400000], 0, s7) ∧
      rele_set_watering_pass s = some s7) ∧
    (∃ s1 : Reles,
      rele_set_watering_steps (7 * n) 0 s
        = some ((List.replicate n
            [ProducerEvent.submit 0, .submit 1, .submit 2, .submit 3, .submit 4, .submit 5,
              .delay 86400000]).flatten, 0, s1) ∧
      rele_set_watering n s = some s1) ∧
    (q.uxLength = QUEUE_LENGTH → q.items.length ≤ 4 →
      rele_set_watering_pass s = some { s with
        queues := s.queues.set h (some { q with items := q.items ++ [0, 1, 2, 3, 4, 5] }),
        log := s.log ++
          [.added 0, .count (q.items.length + 1), .added 1, .count (q.items.length + 2),
           .added 2, .count (q.items.length + 3), .added 3, .count (q.items.length + 4),
           .added 4, .count (q.items.length + 5), .added 5, .count (q.items.length + 6)],
        ops := s.ops ++ [.delay 86400000] }) := by
  obtain ⟨h6, s7, q7, hsteps, hpass, -, -⟩ := rele_set_watering_cycle s h q hq hl
  refine ⟨h6, ⟨s7, hsteps, hpass⟩, rele_set_watering_cycles n s h q hq hl, ?_⟩
  intro hcap hlen
  have hb := burst_accepted (List.range NUM_GPIO_PINS) s h q hq hl
    (by rw [hcap]; simp [NUM_GPIO_PINS, QUEUE_LENGTH]; omega)
  unfold rele_set_watering_pass rele_set_watering_burst
  rw [hb]
  simp [NUM_GPIO_PINS, List.range, List.range.loop, burst_log, SECONDS_IN_ONE_DAY]

/-- Witness of C11: two passes on a queue that holds the requests 2 and 3.  The first
burst is accepted whole; of the second only 0 and 1 find room. -/
theorem rele_set_watering_burst_order_witness :
    ((reles_with [2, 3]).gpio_queue = some 0 ∧
      (reles_with [2, 3]).queue_at (some 0) = some ⟨10, [2, 3]⟩ ∧
      (10 : Nat) = QUEUE_LENGTH ∧ ([2, 3] : List Int).length ≤ 4) ∧
    rele_set_watering_pass (reles_with [2, 3]) = some { reles_with [2, 3] with
      queues := [some ⟨10, [2, 3, 0, 1, 2, 3, 4, 5]⟩],
      log := [.added 0, .count 3, .added 1, .count 4, .added 2, .count 5,
              .added 3, .count 6, .added 4, .count 7, .added 5, .count 8],
      ops := [.delay 86400000] } ∧
    (∃ s1 : Reles,
      rele_set_watering_steps (7 * 2) 0 (reles_with [2, 3])
        = some ((List.replicate 2
            [ProducerEvent.submit 0, .submit 1, .submit 2, .submit 3, .submit 4, .submit 5,
              .delay 86400000]).flatten, 0, s1) ∧
      rele_set_watering 2 (reles_with [2, 3]) = some s1) ∧
    rele_set_watering 2 (reles_with [2, 3]) = some { reles_with [2, 3] with
      queues := [some ⟨10, [2, 3, 0, 1, 2, 3, 4, 5, 0, 1]⟩],
      log := [.added 0, .count 3, .added 1, .count 4, .added 2, .count 5,
              .added 3, .count 6, .added 4, .count 7, .added 5, .count 8,
              .added 0, .count 9, .added 1, .count 10,
              .queue_full, .queue_full, .queue_full, .queue_full],
      ops := [.delay 86400000, .delay 86400000] } :=
  ⟨⟨by decide, by decide, by decide, by decide⟩,
    (rele_set_watering_burst_order (reles_with [2, 3]) 0 ⟨10, [2, 3]⟩ 2
      (by decide) (by decide)).2.2.2 (by decide) (by decide),
    (rele_set_watering_burst_order (reles_with [2, 3]) 0 ⟨10, [2, 3]⟩ 2
      (by decide) (by decide)).2.2.1,
    by decide⟩

/-- C12: `configure_gpios` leaves all six channels at the closed level 1.  From there,
for every sequence of requests with indices in `0 .. 5` and consumer passes on a
live queue whose requests are in `0 .. 5`, the run returns, the writes of the
consumer `rele_queue_thread` are a sequence of whole pulses (0, delay, 1 on the
line of one channel of the table), and at every point of the trace at most one
channel is at the open level 0. -/
theorem rele_queue_thread_one_valve (s : Reles) (h : Nat) (q : Queue) (acts : List Act)
    (hq : s.gpio_queue = some h) (hl : s.queue_at (some h) = some q)
    (hitems : ∀ x, x ∈ q.items → 0 ≤ x ∧ x < NUM_GPIO_PINS)
    (hacts : ∀ slot, Act.add slot ∈ acts → 0 ≤ slot ∧ slot < NUM_GPIO_PINS) :
    (∀ g, g ∈ gpio_settings → level_after (configure_gpios s).ops g.gpio_number = some 1) ∧
    open_valves (configure_gpios s).ops = [] ∧
    ∃ (s1 : Reles) (served : List GpioSettings),
      Reles.run acts (configure_gpios s) = some s1 ∧
      (∀ g, g ∈ served → g ∈ gpio_settings) ∧
      s1.ops = (configure_gpios s).ops ++ (served.map valve_pulse).flatten ∧
      ∀ pre, (configure_gpios s).ops <+: pre → pre <+: s1.ops →
        (open_valves pre).length ≤ 1 := by
  have hc := all_closed_configure_gpios s
  obtain ⟨e1, e2, _⟩ := configure_gpios_frame s
  obtain ⟨s1, served, hrun, hmem, hops⟩ := run_pulses acts (configure_gpios s) h q
    (by rw [e1]; exact hq) (by simpa [Reles.queue_at, e2] using hl) hitems hacts
  refine ⟨hc, open_valves_of_all_closed _ hc, s1, served, hrun, hmem, hops, ?_⟩
  intro pre hpre1 hpre2
  obtain ⟨t, rfl⟩ := hpre1
  rw [hops, List.prefix_append_right_inj] at hpre2
  exact pulses_one_open served _ hc hmem t hpre2

/-- Witness of C12: three requests and three consumer passes, interleaved, on the
scheduler left by `reles_init`. -/
theorem rele_queue_thread_one_valve_witness :
    Reles.run [.add 3, .consume, .add 1, .add 2, .consume, .consume]
        (configure_gpios (configure_queue true Reles.boot))
      = some { configure_gpios (configure_queue true Reles.boot) with
          ops := (configure_gpios (configure_queue true Reles.boot)).ops ++
            [.set_level 15 0, .delay 1000, .set_level 15 1,
             .set_level 17 0, .delay 1000, .set_level 17 1,
             .set_level 5 0, .delay 1000, .set_level 5 1],
          log := [.added 3, .count 1, .added 1, .count 1, .added 2, .count 2] } ∧
    open_valves ((configure_gpios (configure_queue true Reles.boot)).ops ++
        [.set_level 15 0, .delay 1000, .set_level 15 1, .set_level 17 0]) = [⟨17, 1000⟩] ∧
    ∃ (s1 : Reles) (served : List GpioSettings),
      Reles.run [.add 3, .consume, .add 1, .add 2, .consume, .consume]
        (configure_gpios (configure_queue true Reles.boot)) = some s1 ∧
      (∀ g, g ∈ served → g ∈ gpio_settings) ∧
      s1.ops = (configure_gpios (configure_queue true Reles.boot)).ops
        ++ (served.map valve_pulse).flatten ∧
      ∀ pre, (configure_gpios (configure_queue true Reles.boot)).ops <+: pre → pre <+: s1.ops →
        (open_valves pre).length ≤ 1 :=
  ⟨by decide, by decide,
    (rele_queue_thread_one_valve (configure_queue true Reles.boot) 0 ⟨QUEUE_LENGTH, []⟩
      [.add 3, .consume, .add 1, .add 2, .consume, .consume] (by decide) (by decide)
      (by intro x hx; simp at hx)
      (by
        intro slot hs
        simp only [List.mem_cons, Act.add.injEq, List.mem_singleton, List.not_mem_nil, or_false,
          false_or, reduceCtorEq] at hs
        rcases hs with rfl | rfl | rfl <;> decide)).2.2⟩

/-- C13: on the state of the sensor reader (running flag, task handle, table of
tasks): `dht22_init` called while already running changes nothing and creates no
task, and `dht22_deinit` called while not running changes nothing; hence init
followed by init equals init, and deinit followed by deinit equals deinit. -/
theorem dht22_init_deinit_idempotent (a0 a1 : Bool) (p : DhtSys) :
    (p.1.dht22_task_running = true → dht22_init a0 p = p) ∧
    (p.1.dht22_task_running = false → dht22_deinit p = some p) ∧
    dht22_init a1 (dht22_init a0 p) = dht22_init a0 p ∧
    (dht22_deinit p).bind dht22_deinit = dht22_deinit p := by
  obtain ⟨s, tasks⟩ := p
  refine ⟨?_, ?_, ?_, ?_⟩
  · intro h
    simp only at h
    simp [dht22_init, h]
  · intro h
    simp only at h
    simp [dht22_deinit, h]
  · cases hr : s.dht22_task_running <;> simp [dht22_init, set_dht_gpio, hr]
  · cases hr : s.dht22_task_running
    · simp [dht22_deinit, hr]
    · cases hh : s.dht22_task_handle <;> simp [dht22_deinit, hr, hh]

/-- Witness of C13: a second `dht22_init` on the started reader, and a second
`dht22_deinit` on the stopped one. -/
theorem dht22_init_deinit_idempotent_witness :
    dht22_init true (Dht.boot, []) = (Dht.started, [some .dht22_task]) ∧
    (Dht.started.dht22_task_running = true ∧
      dht22_init true (Dht.started, [some .dht22_task]) = (Dht.started, [some .dht22_task])) ∧
    dht22_deinit (Dht.started, [some .dht22_task])
      = some ({ Dht.boot with DHTgpio := GPIO_DHT22 }, [none]) ∧
    (Dht.boot.dht22_task_running = false ∧
      dht22_deinit ({ Dht.boot with DHTgpio := GPIO_DHT22 }, [none])
        = some ({ Dht.boot with DHTgpio := GPIO_DHT22 }, [none])) :=
  ⟨by decide,
    ⟨by decide, (dht22_init_deinit_idempotent true true (Dht.started, [some .dht22_task])).1
      (by decide)⟩,
    by decide,
    ⟨by decide, (dht22_init_deinit_idempotent true true
      ({ Dht.boot with DHTgpio := GPIO_DHT22 }, [none])).2.1 (by decide)⟩⟩

/-- C14 fails on the code: `reles_init` has no guard.  Every call creates one more
queue, one more consumer task and one more daily-producer task (when the kernel
can allocate them): after the boot state and two calls there are two queues, two
consumers and two producers, and the statics refer to the second ones. -/
theorem reles_init_twice_duplicates :
    (∀ s : Reles,
      (reles_init true true true s).queues.length = s.queues.length + 1 ∧
      count_tasks .rele_queue_thread (reles_init true true true s).tasks
        = count_tasks .rele_queue_thread s.tasks + 1 ∧
      count_tasks .rele_set_watering (reles_init true true true s).tasks
        = count_tasks .rele_set_watering s.tasks + 1) ∧
    (reles_init true true true Reles.boot).queues = [some ⟨QUEUE_LENGTH, []⟩] ∧
    (reles_init true true true Reles.boot).tasks
      = [some .rele_queue_thread, some .rele_set_watering] ∧
    (reles_init true true true (reles_init true true true Reles.boot)).queues
      = [some ⟨QUEUE_LENGTH, []⟩, some ⟨QUEUE_LENGTH, []⟩] ∧
    (reles_init true true true (reles_init true true true Reles.boot)).tasks
      = [some .rele_queue_thread, some .rele_set_watering,
         some .rele_queue_thread, some .rele_set_watering] ∧
    (reles_init true true true (reles_init true true true Reles.boot)).gpio_queue = some 1 ∧
    (reles_init true true true (reles_init true true true Reles.boot)).gpio_queue_thread_handle
      = some 2 ∧
    (reles_init true true true (reles_init true true true Reles.boot)).gpio_watering_handle
      = some 3 := by
  refine ⟨?_, by decide, by decide, by decide, by decide, by decide, by decide, by decide⟩
  intro s
  have hq : (configure_gpios (configure_queue true s)).queues = s.queues ++ [some ⟨QUEUE_LENGTH, []⟩] :=
    (configure_gpios_frame (configure_queue true s)).2.1
  have ht : (configure_gpios (configure_queue true s)).tasks = s.tasks :=
    (configure_gpios_frame (configure_queue true s)).2.2.1
  refine ⟨?_, ?_, ?_⟩
  · simp [reles_init, configure_threads, hq]
  · simp [reles_init, configure_threads, xTaskCreate, count_tasks, ht]
  · simp [reles_init, configure_threads, xTaskCreate, count_tasks, ht]

/-- C15: the six valve lines of `gpio_settings` are 16, 17, 5, 15, 2, 4, pairwise
distinct, and GPIO 22 is none of them.  A sensor reader started through
`dht22_init` (from the not-running state) has `DHTgpio = 22`, whatever it was
before; every pass of its task keeps it, acts on no line but 22 and reads no line
but 22. -/
theorem gpio_lines_one_owner :
    gpio_settings.map (·.gpio_number) = [16, 17, 5, 15, 2, 4] ∧
    (gpio_settings.map (·.gpio_number)).Nodup ∧
    GPIO_DHT22 ∉ gpio_settings.map (·.gpio_number) ∧
    ∀ (alloc : Bool) (p : DhtSys), p.1.dht22_task_running = false →
      (dht22_init alloc p).1.DHTgpio = GPIO_DHT22 ∧
      (dht22_init alloc p).1.dht22_task_running = true ∧
      (dht22_init alloc p).1.ops = p.1.ops ∧
      ∀ (n : Nat) (env env1 : Env),
        (dht22_task env n (dht22_init alloc p).1).DHTgpio = GPIO_DHT22 ∧
        (∀ op, op ∈ (dht22_task env n (dht22_init alloc p).1).ops →
          op ∈ p.1.ops ∨ op.line = some GPIO_DHT22 ∨ op = .delay 4000) ∧
        ((∀ k, env GPIO_DHT22 k = env1 GPIO_DHT22 k) →
          dht22_task env n (dht22_init alloc p).1 = dht22_task env1 n (dht22_init alloc p).1) := by
  refine ⟨by decide, by decide, by decide, ?_⟩
  intro alloc p hr
  have hg : (dht22_init alloc p).1.DHTgpio = GPIO_DHT22 := by
    simp [dht22_init, set_dht_gpio, hr]
  have hrun : (dht22_init alloc p).1.dht22_task_running = true := by
    simp [dht22_init, set_dht_gpio, hr]
  have hops : (dht22_init alloc p).1.ops = p.1.ops := by
    simp [dht22_init, set_dht_gpio, hr]
  refine ⟨hg, hrun, hops, ?_⟩
  intro n env env1
  obtain ⟨h1, h2, h3⟩ := dht22_task_line env env1 n (dht22_init alloc p).1
  rw [hg] at h1 h2 h3
  rw [hops] at h2
  exact ⟨h1, h2, h3⟩

/-- Witness of C15: the reader started from the boot state, where `DHTgpio` is 4, the
line of the sixth valve. -/
theorem gpio_lines_one_owner_witness :
    Dht.boot.DHTgpio = GPIO_OUTPUT_PIN_6 ∧
    Dht.boot.dht22_task_running = false ∧
    (dht22_init true (Dht.boot, [])).1.DHTgpio = GPIO_DHT22 ∧
    (dht22_task (dht_line 80 80 [0x02, 0x1A, 0x01, 0x02, 0x1F]) 1
        (dht22_init true (Dht.boot, [])).1).DHTgpio = GPIO_DHT22 ∧
    dht22_task (dht_line 80 80 [0x02, 0x1A, 0x01, 0x02, 0x1F]) 1
        (dht22_init true (Dht.boot, [])).1
      = dht22_task (other_lines_inverted (dht_line 80 80 [0x02, 0x1A, 0x01, 0x02, 0x1F])) 1
        (dht22_init true (Dht.boot, [])).1 := by
  have h := gpio_lines_one_owner.2.2.2 true (Dht.boot, []) (by decide)
  have hn := h.2.2.2 1 (dht_line 80 80 [0x02, 0x1A, 0x01, 0x02, 0x1F])
    (other_lines_inverted (dht_line 80 80 [0x02, 0x1A, 0x01, 0x02, 0x1F]))
  exact ⟨by decide, by decide, h.1, hn.1, hn.2.2 (fun k => by simp [other_lines_inverted])⟩

/-- C16: `reles_deinit(q)` sets the consumer task handle to `NULL`, deletes the task
it referred to and deletes the queue `q` passed as argument; the static
`gpio_queue`, the daily-producer task handle, every other task and queue, the
trace and the log are the same after the call as before it. -/
theorem reles_deinit_frame (q : Option Nat) (s : Reles) :
    (reles_deinit q s).gpio_queue = s.gpio_queue ∧
    (reles_deinit q s).gpio_watering_handle = s.gpio_watering_handle ∧
    (reles_deinit q s).gpio_queue_thread_handle = none ∧
    (reles_deinit q s).tasks
      = (match s.gpio_queue_thread_handle with
         | some t => s.tasks.set t none
         | none => s.tasks) ∧
    (reles_deinit q s).queues
      = (match q with
         | some h => s.queues.set h none
         | none => s.queues) ∧
    (reles_deinit q s).ops = s.ops ∧ (reles_deinit q s).log = s.log ∧
    (∀ i, s.gpio_queue_thread_handle ≠ some i → (reles_deinit q s).tasks.get? i = s.tasks.get? i) ∧
    (∀ i, q ≠ some i → (reles_deinit q s).queues.get? i = s.queues.get? i) := by
  cases ht : s.gpio_queue_thread_handle with
  | none =>
    cases hq : q with
    | none => simp [reles_deinit, ht]
    | some h =>
      simp [reles_deinit, ht]
      exact fun i hi => List.getElem?_set_ne hi
  | some t =>
    cases hq : q with
    | none =>
      simp [reles_deinit, vTaskDelete, ht]
      exact fun i hi => List.getElem?_set_ne hi
    | some h =>
      simp [reles_deinit, vTaskDelete, ht]
      exact ⟨fun i hi => List.getElem?_set_ne hi, fun i hi => List.getElem?_set_ne hi⟩

/-- Witness of C16: `reles_deinit` called with the handle of the queue on the
scheduler left by `reles_init`.  The static still holds the handle of the deleted
queue, and the producer task is alive. -/
theorem reles_deinit_frame_witness :
    (reles_init true true true Reles.boot).gpio_queue_thread_handle ≠ some 1 ∧
    (reles_deinit (some 0) (reles_init true true true Reles.boot)).tasks.get? 1
      = (reles_init true true true Reles.boot).tasks.get? 1 ∧
    (reles_deinit (some 0) (reles_init true true true Reles.boot)).tasks
      = [none, some .rele_set_watering] ∧
    (reles_deinit (some 0) (reles_init true true true Reles.boot)).gpio_queue = some 0 ∧
    (reles_deinit (some 0) (reles_init true true true Reles.boot)).queues = [none] :=
  ⟨by decide,
    (reles_deinit_frame (some 0) (reles_init true true true Reles.boot)).2.2.2.2.2.2.2.1 1
      (by decide),
    by decide, by decide, by decide⟩

/-- C17, as the code has it: for every bound `0 <= usTimeOut < INT_MAX`, every `state`
and every line, `get_signal_level` terminates (the loop returns within
`usTimeOut + 2` evaluations of its condition, each of which reads the line
once), and its result is either `-1`, after `usTimeOut + 2` samples equal to
`state`, or the number `n` of consecutive samples that equalled `state`, with
`0 <= n <= usTimeOut + 1`. -/
theorem get_signal_level_bounded (env : Env) (gpio : Int) (usTimeOut : Int) (state : Bool)
    (reads : Nat) (hT : 0 ≤ usTimeOut) (hmax : usTimeOut < INT_MAX) :
    get_signal_level_loop env gpio usTimeOut state (usTimeOut.toNat + 2) 0 reads
      = some (get_signal_level env gpio usTimeOut state reads) ∧
    (get_signal_level env gpio usTimeOut state reads).2 ≤ reads + (usTimeOut.toNat + 2) ∧
    ((get_signal_level env gpio usTimeOut state reads = (-1, reads + (usTimeOut.toNat + 2)) ∧
        ∀ i, i < usTimeOut.toNat + 2 → env gpio (reads + i) = (if state then 1 else 0)) ∨
      ∃ n : Nat, (n : Int) ≤ usTimeOut + 1 ∧
        get_signal_level env gpio usTimeOut state reads = ((n : Int), reads + n + 1) ∧
        (∀ i, i < n → env gpio (reads + i) = (if state then 1 else 0)) ∧
        env gpio (reads + n) ≠ (if state then 1 else 0)) := by
  have hloop := get_signal_level_eq_loop env gpio usTimeOut state reads hmax
  have hfuel : (usTimeOut + 2 - 0).toNat = usTimeOut.toNat + 2 := by omega
  rcases get_signal_level_loop_spec env gpio usTimeOut state hmax _ 0 reads _ hloop (le_refl 0)
    (by omega) with ⟨hr, hall⟩ | ⟨n, hn, hr, hall, hne⟩
  · rw [hfuel] at hr hall
    refine ⟨hloop, ?_, Or.inl ⟨hr, hall⟩⟩
    rw [hr]
  · have hn1 : (n : Int) ≤ usTimeOut + 1 := by omega
    have hr1 : get_signal_level env gpio usTimeOut state reads = ((n : Int), reads + n + 1) := by
      rw [hr]; simp
    refine ⟨hloop, ?_, Or.inr ⟨n, hn1, hr1, hall, hne⟩⟩
    rw [hr1]
    simp only
    omega

/-- Witness of C17: the first acknowledgement wait on a line that is low for 80
samples. -/
theorem get_signal_level_bounded_witness :
    ((0 : Int) ≤ 85 ∧ (85 : Int) < INT_MAX) ∧
    get_signal_level (dht_line 80 80 []) GPIO_DHT22 85 false 0 = (80, 81) ∧
    get_signal_level_loop (dht_line 80 80 []) GPIO_DHT22 85 false ((85 : Int).toNat + 2) 0 0
      = some (get_signal_level (dht_line 80 80 []) GPIO_DHT22 85 false 0) ∧
    (get_signal_level (dht_line 80 80 []) GPIO_DHT22 85 false 0).2
      ≤ 0 + ((85 : Int).toNat + 2) :=
  ⟨⟨by decide, by decide⟩, by decide!,
    (get_signal_level_bounded (dht_line 80 80 []) GPIO_DHT22 85 false 0
      (by decide) (by decide)).1,
    (get_signal_level_bounded (dht_line 80 80 []) GPIO_DHT22 85 false 0
      (by decide) (by decide)).2.1⟩

/-- Counterexample to C17 as stated: the bound `INT_MAX` is not negative, and with it
the loop of `get_signal_level` never returns on a line that stays low, whatever
the number of reads allowed: the counter wraps before `uSec > usTimeOut` can
hold. -/
theorem get_signal_level_int_max_no_return :
    (0 : Int) ≤ INT_MAX ∧
    ∀ fuel : Nat,
      get_signal_level_loop stuck_low GPIO_DHT22 INT_MAX false fuel 0 0 = none :=
  ⟨by decide, fun fuel => get_signal_level_loop_stuck fuel 0 0 (by decide)⟩

/-- C18: in the bit loop of `read_dht`, at the start of iteration `k` (after `k`
iterations, `0 <= k <= 40`) `byteInx = k div 8` and `bitInx = 7 - k mod 8`; so for
`k < 40` the write `dhtData[byteInx] |= (1 << bitInx)` has `byteInx` within the
five-byte array and a shift within `0 .. 7`; after the loop `byteInx = 5` and
`bitInx = 7`. -/
theorem read_dht_bits_indices (env : Env) (gpio : Int) (k : Nat) (bl : BitLoop) (reads r : Nat)
    (hk : k ≤ 40)
    (h : read_dht_bits env gpio k ⟨List.replicate MAXdhtData 0, 0, 7⟩ reads = (some bl, r)) :
    bl.byteInx = k / 8 ∧ bl.bitInx = 7 - k % 8 ∧
    bl.dhtData.length = MAXdhtData ∧
    (k < 40 → bl.byteInx < bl.dhtData.length ∧ bl.bitInx ≤ 7) ∧
    (k = 40 → bl.byteInx = 5 ∧ bl.bitInx = 7) := by
  have hpos := read_dht_bits_position env gpio k 0 ⟨List.replicate MAXdhtData 0, 0, 7⟩ bl reads r
    (by omega) (by decide) (by decide) h
  rw [Nat.zero_add] at hpos
  have hlen := read_dht_bits_length env gpio k _ bl reads r h
  have hlen5 : bl.dhtData.length = 5 := by simpa [MAXdhtData] using hlen
  refine ⟨hpos.1, hpos.2, by simpa [MAXdhtData] using hlen5, ?_, ?_⟩
  · intro hk40
    rw [hlen5, hpos.1, hpos.2]
    constructor <;> omega
  · intro hk40
    rw [hpos.1, hpos.2, hk40]
    exact ⟨by decide, by decide⟩

/-- Witness of C18: the start of iteration 13 on a transmission of
`A5 3C 00 FF 81`. -/
theorem read_dht_bits_indices_witness :
    read_dht_bits (dht_line 80 80 [0xA5, 0x3C, 0x00, 0xFF, 0x81]) GPIO_DHT22 13
        ⟨List.replicate MAXdhtData 0, 0, 7⟩ 162 = (some ⟨[0xA5, 0x38, 0, 0, 0], 1, 2⟩, 1228) ∧
    ((1 : Nat) = 13 / 8 ∧ (2 : Nat) = 7 - 13 % 8 ∧
      ([0xA5, 0x38, 0, 0, 0] : List Nat).length = MAXdhtData ∧
      (13 < 40 → (1 : Nat) < ([0xA5, 0x38, 0, 0, 0] : List Nat).length ∧ (2 : Nat) ≤ 7) ∧
      (13 = 40 → (1 : Nat) = 5 ∧ (2 : Nat) = 7)) := by
  have h : read_dht_bits (dht_line 80 80 [0xA5, 0x3C, 0x00, 0xFF, 0x81]) GPIO_DHT22 13
      ⟨List.replicate MAXdhtData 0, 0, 7⟩ 162 = (some ⟨[0xA5, 0x38, 0, 0, 0], 1, 2⟩, 1228) := by
    decide!
  exact ⟨h, read_dht_bits_indices _ GPIO_DHT22 13 _ 162 1228 (by decide) h⟩

end Garden
